import Mathlib

/-!
Shallow embedding of the SPI master driver (spi.c of mat91lib) and proofs
about its device multiplexing, config caching, chip-select discipline,
power lifecycle and word-transfer engine.

Hardware side effects are modelled as an explicit trace of `Event`s; the
driver's mutable globals (`spi_config_last`, `spi_devices_enabled`) are
threaded explicitly.  Devices are identified by their pool index, mirroring
the pointer identity used by the C code.
-/

/-- Pin configuration values of the pio abstraction (pio.h); the SPI driver
uses `outputLow`, `outputHigh` and the two peripheral-function selections. -/
inductive PioConfig where
  | input
  | pullup
  | pulldown
  | outputLow
  | outputHigh
  | periphA
  | periphB
deriving DecidableEq

/-- A digital pin: port plus bitmask, mirroring `pio_t`. -/
structure Pio where
  port : Nat
  bitmask : Nat
deriving DecidableEq

/-- Chip-select framing modes: `SPI_CS_MODE_TOGGLE`, `SPI_CS_MODE_FRAME`,
`SPI_CS_MODE_HIGH`. -/
inductive SpiCsMode where
  | toggle
  | frame
  | high
deriving DecidableEq

/-- Clock phase/polarity modes `SPI_MODE_0` .. `SPI_MODE_3`. -/
inductive SpiMode where
  | mode0
  | mode1
  | mode2
  | mode3
deriving DecidableEq

/-- Modelled from the spec: the logical device record `spi_dev_t` is declared
in spi.h which is not among the sources; its fields are reconstructed from the
spec's data model (hardware channel id, chip-select pin, resolved capability,
clock mode, word width, clock divisor, two delays, framing mode, transient
`cs_active` flag).  Numeric fields are modelled as unbounded naturals since
the spec does not give storage widths. -/
structure SpiDev where
  channel : Nat
  cs : Pio
  cs_config : PioConfig
  mode : SpiMode
  bits : Nat
  clock_divisor : Nat
  cs_assert_delay : Nat
  cs_negate_delay : Nat
  cs_mode : SpiCsMode
  cs_active : Bool
deriving DecidableEq

/-- Observable hardware actions of the driver, in program order.  Register
read-modify-write helpers are modelled as one event carrying the field value
they insert. -/
inductive Event where
  | mrChannelSelect (channel mask : Nat)
  | csrCsMode (channel : Nat) (csaat : Bool)
  | csrMode (channel : Nat) (cpol ncpha : Bool)
  | csrBits (channel : Nat) (field : Nat)
  | csrDivisor (channel : Nat) (dv : Nat)
  | csrClockDelay (channel : Nat) (delay : Nat)
  | csrDelay (channel : Nat) (delay : Nat)
  | pioConfig (pio : Pio) (cfg : PioConfig)
  | xfer (channel tx : Nat)
  | lastxfer (channel : Nat)
  | pinsPeriphSelect
  | pinsGpioDisable
  | pinsPullupDisable
  | clockEnable
  | swReset
  | masterSetup
  | spiEnable
  | spiDisable
  | pinsGpioEnable
  | pinsLow
  | clockDisable
deriving DecidableEq

/-- Discriminator for pio pin configuration events. -/
def Event.isPio : Event → Bool
  | .pioConfig _ _ => true
  | _ => false

/-- Discriminator for word-exchange events (`SPI_XFER`). -/
def Event.isXfer : Event → Bool
  | .xfer _ _ => true
  | _ => false

/-- Discriminator for `SPI_LASTXFER` events. -/
def Event.isLastxfer : Event → Bool
  | .lastxfer _ => true
  | _ => false

/-- SPI_CHANNEL_MASK: `0x0f ^ BIT (channel & (SPI_CHANNELS_NUM - 1))` with
`SPI_CHANNELS_NUM = 4`. -/
def spiChannelMask (channel : Nat) : Nat :=
  15 ^^^ 2 ^ (channel % 4)

/-- CPOL bit written by `spi_channel_mode_set`'s switch. -/
def spiModeCpol : SpiMode → Bool
  | .mode0 => false
  | .mode1 => false
  | .mode2 => true
  | .mode3 => true

/-- NCPHA bit written by `spi_channel_mode_set`'s switch. -/
def spiModeNcpha : SpiMode → Bool
  | .mode0 => true
  | .mode1 => false
  | .mode2 => true
  | .mode3 => false

/-- spi_channel_select: clears variable peripheral select and inserts the
channel mask into SPI_MR (modelled as one write event). -/
def spi_channel_select (channel : Nat) : List Event :=
  [Event.mrChannelSelect channel (spiChannelMask channel)]

/-- spi_channel_cs_mode_set: rewrites the CSAAT bit of the channel CSR; the
bit is set exactly when the framing mode is FRAME. -/
def spi_channel_cs_mode_set (channel : Nat) (mode : SpiCsMode) : List Event :=
  [Event.csrCsMode channel (if mode = SpiCsMode.frame then true else false)]

/-- spi_channel_mode_set: rewrites the CPOL/NCPHA bits of the channel CSR. -/
def spi_channel_mode_set (channel : Nat) (mode : SpiMode) : List Event :=
  [Event.csrMode channel (spiModeCpol mode) (spiModeNcpha mode)]

/-- spi_channel_bits_set: inserts `bits - 8` into CSR bits 4..7. -/
def spi_channel_bits_set (channel : Nat) (bits : Nat) : List Event :=
  [Event.csrBits channel (bits - 8)]

/-- spi_channel_clock_divisor_set: inserts the divisor into CSR bits 8..15. -/
def spi_channel_clock_divisor_set (channel : Nat) (dv : Nat) : List Event :=
  [Event.csrDivisor channel dv]

/-- spi_channel_clock_delay_set: inserts DLYBS into CSR bits 16..23. -/
def spi_channel_clock_delay_set (channel : Nat) (delay : Nat) : List Event :=
  [Event.csrClockDelay channel delay]

/-- spi_channel_delay_set: inserts DLYBCT into CSR bits 24..31. -/
def spi_channel_delay_set (channel : Nat) (delay : Nat) : List Event :=
  [Event.csrDelay channel delay]

/-- Register writes performed by the non-cached branch of `spi_config`, in
the program order of spi.c. -/
def spi_config_writes (d : SpiDev) : List Event :=
  spi_channel_select d.channel ++
  spi_channel_cs_mode_set d.channel d.cs_mode ++
  spi_channel_mode_set d.channel d.mode ++
  spi_channel_bits_set d.channel d.bits ++
  spi_channel_clock_divisor_set d.channel d.clock_divisor ++
  spi_channel_clock_delay_set d.channel d.cs_assert_delay ++
  spi_channel_delay_set d.channel ((d.cs_negate_delay + 31) / 32)

/-- spi_config: short-circuits when the device (identified by index `idx`)
is the cached one, otherwise records it as cached and rewrites the channel
registers. -/
def spi_config (cfgLast : Option Nat) (idx : Nat) (d : SpiDev) :
    Option Nat × List Event :=
  if cfgLast = some idx then (cfgLast, [])
  else (some idx, spi_config_writes d)

/-- spi_update: forces the next `spi_config` to rewrite hardware if the
mutated device is the cached one. -/
def spi_update (idx : Nat) (cfgLast : Option Nat) : Option Nat :=
  if cfgLast = some idx then none else cfgLast

/-- spi_clock_divisor_set: a zero divisor is clamped to 1. -/
def spi_clock_divisor_set (idx : Nat) (cfgLast : Option Nat) (d : SpiDev)
    (clock_divisor : Nat) : SpiDev × Option Nat :=
  let v := if clock_divisor = 0 then 1 else clock_divisor
  ({d with clock_divisor := v}, spi_update idx cfgLast)

/-- spi_clock_speed_set: stores `(F_CPU + speed - 1) / speed` as divisor and
returns the achieved speed `F_CPU / divisor`; `fcpu` stands for the `F_CPU`
configuration constant. -/
def spi_clock_speed_set (fcpu idx : Nat) (cfgLast : Option Nat) (d : SpiDev)
    (clock_speed : Nat) : SpiDev × Option Nat × Nat :=
  let r := spi_clock_divisor_set idx cfgLast d ((fcpu + clock_speed - 1) / clock_speed)
  (r.1, r.2, fcpu / r.1.clock_divisor)

/-- spi_cs_negate_delay_set. -/
def spi_cs_negate_delay_set (idx : Nat) (cfgLast : Option Nat) (d : SpiDev)
    (delay : Nat) : SpiDev × Option Nat :=
  ({d with cs_negate_delay := delay}, spi_update idx cfgLast)

/-- spi_cs_assert_delay_set. -/
def spi_cs_assert_delay_set (idx : Nat) (cfgLast : Option Nat) (d : SpiDev)
    (delay : Nat) : SpiDev × Option Nat :=
  ({d with cs_assert_delay := delay}, spi_update idx cfgLast)

/-- spi_bits_set. -/
def spi_bits_set (idx : Nat) (cfgLast : Option Nat) (d : SpiDev)
    (bits : Nat) : SpiDev × Option Nat :=
  ({d with bits := bits}, spi_update idx cfgLast)

/-- spi_mode_set. -/
def spi_mode_set (idx : Nat) (cfgLast : Option Nat) (d : SpiDev)
    (mode : SpiMode) : SpiDev × Option Nat :=
  ({d with mode := mode}, spi_update idx cfgLast)

/-- spi_cs_mode_set. -/
def spi_cs_mode_set (idx : Nat) (cfgLast : Option Nat) (d : SpiDev)
    (mode : SpiCsMode) : SpiDev × Option Nat :=
  ({d with cs_mode := mode}, spi_update idx cfgLast)

/-- spi_cs_assert: force CS low; no-op when already active or in
ALWAYS-HIGH mode; returns true when the assert is deferred to the
automatic hardware chip select. -/
def spi_cs_assert (d : SpiDev) : SpiDev × List Event × Bool :=
  if d.cs_active = true ∨ d.cs_mode = SpiCsMode.high then (d, [], false)
  else
    let d1 := {d with cs_active := true}
    if d.cs_config = PioConfig.outputHigh then
      (d1, [Event.pioConfig d.cs PioConfig.outputLow], false)
    else
      (d1, [Event.pioConfig d.cs d.cs_config], true)

/-- spi_cs_negate: unconditionally reconfigure the CS pin as output high and
clear the active flag. -/
def spi_cs_negate (d : SpiDev) : SpiDev × List Event :=
  ({d with cs_active := false}, [Event.pioConfig d.cs PioConfig.outputHigh])

/-- One row of the chip-select capability table `spi_cs`; `periph` is 0 for
PERIPH_A and 1 for PERIPH_B. -/
structure SpiCsEntry where
  channel : Nat
  pio : Pio
  periph : Nat
deriving DecidableEq

/-- The AT91SAM7S capability table (the single-controller `spi_cs` array);
port A is modelled as port 0 and bitmasks are `BIT (portbit)`. -/
def spi_cs_table : List SpiCsEntry :=
  [⟨0, ⟨0, 2 ^ 11⟩, 0⟩,
   ⟨1, ⟨0, 2 ^ 9⟩, 1⟩,
   ⟨1, ⟨0, 2 ^ 31⟩, 0⟩,
   ⟨2, ⟨0, 2 ^ 10⟩, 1⟩,
   ⟨2, ⟨0, 2 ^ 30⟩, 1⟩,
   ⟨3, ⟨0, 2 ^ 3⟩, 1⟩,
   ⟨3, ⟨0, 2 ^ 5⟩, 1⟩,
   ⟨3, ⟨0, 2 ^ 22⟩, 1⟩]

/-- First-match lookup loop of `spi_channel_cs_config_get`. -/
def spi_cs_lookup (channel : Nat) (cs : Pio) : List SpiCsEntry → Option SpiCsEntry
  | [] => none
  | e :: rest =>
    if channel = e.channel ∧ cs.port = e.pio.port ∧ cs.bitmask = e.pio.bitmask
    then some e
    else spi_cs_lookup channel cs rest

/-- spi_channel_cs_config_get: resolve a (channel, pin) pair to the automatic
peripheral selection when the pair is in the capability table, else to the
GPIO fallback `PIO_OUTPUT_HIGH`. -/
def spi_channel_cs_config_get (channel : Nat) (cs : Pio) : PioConfig :=
  match spi_cs_lookup channel cs spi_cs_table with
  | some e => if e.periph = 0 then PioConfig.periphA else PioConfig.periphB
  | none => PioConfig.outputHigh

/-- Hardware bring-up actions of the zero-to-nonzero `spi_wakeup` transition
(pin routing, pullup disable, peripheral clock enable, software reset,
master-mode setup, peripheral enable), single-controller build. -/
def bringupEvents : List Event :=
  [Event.pinsPeriphSelect, Event.pinsGpioDisable, Event.pinsPullupDisable,
   Event.clockEnable, Event.swReset, Event.masterSetup, Event.spiEnable]

/-- Hardware tear-down actions of the nonzero-to-zero `spi_shutdown`
transition before the chip-select loop, single-controller build. -/
def teardownEvents : List Event :=
  [Event.spiDisable, Event.pinsGpioEnable, Event.pinsPullupDisable,
   Event.pinsLow, Event.clockDisable]

/-- spi_wakeup: sets the device's bit in the enabled mask; only the
empty-to-nonempty transition performs the hardware bring-up. -/
def spi_wakeup (enabled : Nat) (idx : Nat) : Nat × List Event :=
  if enabled &&& 2 ^ idx ≠ 0 then (enabled, [])
  else
    let wakeup := enabled = 0
    let e2 := enabled ||| 2 ^ idx
    if wakeup then (e2, bringupEvents) else (e2, [])

/-- spi_shutdown: no-op for an asleep device; otherwise clears the device's
bit and the config cache, and on the nonzero-to-zero transition tears the
controller down and drives every registered device's CS pin to output low.
The bit clear `enabled &= ~BIT(idx)` is written as xor, which agrees with it
because the guard ensures the bit is set. -/
def spi_shutdown (devs : List SpiDev) (cfgLast : Option Nat) (enabled : Nat)
    (idx : Nat) : Option Nat × Nat × List Event :=
  if enabled &&& 2 ^ idx = 0 then (cfgLast, enabled, [])
  else
    let e2 := enabled ^^^ 2 ^ idx
    if e2 = 0 then
      (none, e2,
       teardownEvents ++ devs.map (fun d => Event.pioConfig d.cs PioConfig.outputLow))
    else (none, e2, [])

/-- Result of a transfer call: return value, words stored into the rx buffer
(in store order), final device record, final config cache, event trace. -/
structure TransferResult where
  ret : Nat
  rx : List Nat
  dev : SpiDev
  cfgLast : Option Nat
  events : List Event
deriving DecidableEq

/-- Loop of the automatic-chip-select branch of `spi_transfer_8`.  The C
loop `for (i = 0; i < len; i++)` is run for `n` remaining iterations with
`i` tracking the loop counter; `rxof k` is the word received by the k-th
`SPI_XFER` of the call.  Returns the final `i`, device, events, rx stores. -/
def spi_xfer8_auto_loop (rxof : Nat → Nat) (txdata : List Nat) (rxN : Bool)
    (len : Nat) (terminate : Bool) :
    SpiDev → Nat → Nat → Nat × SpiDev × List Event × List Nat
  | d, i, 0 => (i, d, [], [])
  | d, i, n + 1 =>
    let tx := txdata.getD i 0
    let r1 := if terminate ∧ len - 1 ≤ i then spi_cs_negate d else (d, [])
    let r2 := spi_xfer8_auto_loop rxof txdata rxN len terminate r1.1 (i + 1) n
    (r2.1, r2.2.1, r1.2 ++ [Event.xfer d.channel tx] ++ r2.2.2.1,
     (if rxN then [rxof i] else []) ++ r2.2.2.2)

/-- Loop of the GPIO (bit-banged chip select) branch of `spi_transfer_8`:
per word, assert CS when in TOGGLE mode, exchange the word, negate CS when
in TOGGLE mode. -/
def spi_xfer8_gpio_loop (rxof : Nat → Nat) (txdata : List Nat) (rxN : Bool) :
    SpiDev → Nat → Nat → Nat × SpiDev × List Event × List Nat
  | d, i, 0 => (i, d, [], [])
  | d, i, n + 1 =>
    let r1 := if d.cs_mode = SpiCsMode.toggle then spi_cs_assert d else (d, [], false)
    let tx := txdata.getD i 0
    let r2 := if r1.1.cs_mode = SpiCsMode.toggle then spi_cs_negate r1.1 else (r1.1, [])
    let r3 := spi_xfer8_gpio_loop rxof txdata rxN r2.1 (i + 1) n
    (r3.1, r3.2.1,
     r1.2.1 ++ [Event.xfer d.channel tx] ++ r2.2 ++ r3.2.2.1,
     (if rxN then [rxof i] else []) ++ r3.2.2.2)

/-- Loop of the automatic-chip-select branch of `spi_transfer_16`: `i` steps
by 2 (the C loop is `for (i = 0; i < len; i += 2)`), one 16-bit word
(`txdata` index `i / 2`) is exchanged per iteration, and `SPI_LASTXFER` is
issued when `terminate && i >= len - 1`. -/
def spi_xfer16_auto_loop (rxof : Nat → Nat) (txdata : List Nat) (rxN : Bool)
    (len : Nat) (terminate : Bool) :
    SpiDev → Nat → Nat → Nat × SpiDev × List Event × List Nat
  | d, i, 0 => (i, d, [], [])
  | d, i, n + 1 =>
    let lev : List Event :=
      if terminate ∧ len - 1 ≤ i then [Event.lastxfer d.channel] else []
    let tx := txdata.getD (i / 2) 0
    let r2 := spi_xfer16_auto_loop rxof txdata rxN len terminate d (i + 2) n
    (r2.1, r2.2.1, lev ++ [Event.xfer d.channel tx] ++ r2.2.2.1,
     (if rxN then [rxof (i / 2)] else []) ++ r2.2.2.2)

/-- Loop of the GPIO branch of `spi_transfer_16`; same chip-select handling
as the 8-bit GPIO loop but `i` steps by 2. -/
def spi_xfer16_gpio_loop (rxof : Nat → Nat) (txdata : List Nat) (rxN : Bool) :
    SpiDev → Nat → Nat → Nat × SpiDev × List Event × List Nat
  | d, i, 0 => (i, d, [], [])
  | d, i, n + 1 =>
    let r1 := if d.cs_mode = SpiCsMode.toggle then spi_cs_assert d else (d, [], false)
    let tx := txdata.getD (i / 2) 0
    let r2 := if r1.1.cs_mode = SpiCsMode.toggle then spi_cs_negate r1.1 else (r1.1, [])
    let r3 := spi_xfer16_gpio_loop rxof txdata rxN r2.1 (i + 2) n
    (r3.1, r3.2.1,
     r1.2.1 ++ [Event.xfer d.channel tx] ++ r2.2 ++ r3.2.2.1,
     (if rxN then [rxof (i / 2)] else []) ++ r3.2.2.2)

/-- Automatic-chip-select branch of `spi_transfer_8` after `spi_config`:
assert CS once (deferred to hardware unless suppressed), then run the word
loop, which negates CS right before the last word when terminating. -/
def spi_transfer_8_auto (rxof : Nat → Nat) (cl2 : Option Nat)
    (cfgEv : List Event) (d : SpiDev) (txdata : List Nat) (rxN : Bool)
    (len : Nat) (terminate : Bool) : TransferResult :=
  let r1 := spi_cs_assert d
  let r2 := spi_xfer8_auto_loop rxof txdata rxN len terminate r1.1 0 len
  ⟨r2.1, r2.2.2.2, r2.2.1, cl2, cfgEv ++ r1.2.1 ++ r2.2.2.1⟩

/-- GPIO (bit-banged chip select) branch of `spi_transfer_8` after
`spi_config`: assert CS before the loop in FRAME mode, run the word loop,
negate CS after the loop in FRAME mode when terminating. -/
def spi_transfer_8_gpio (rxof : Nat → Nat) (cl2 : Option Nat)
    (cfgEv : List Event) (d : SpiDev) (txdata : List Nat) (rxN : Bool)
    (len : Nat) (terminate : Bool) : TransferResult :=
  let r1 := if d.cs_mode = SpiCsMode.frame then spi_cs_assert d else (d, [], false)
  let r2 := spi_xfer8_gpio_loop rxof txdata rxN r1.1 0 len
  let r3 := if terminate ∧ d.cs_mode = SpiCsMode.frame then spi_cs_negate r2.2.1
            else (r2.2.1, [])
  ⟨r2.1, r2.2.2.2, r3.1, cl2, cfgEv ++ r1.2.1 ++ r2.2.2.1 ++ r3.2⟩

/-- spi_transfer_8: zero length returns 0 with no hardware access; a null tx
buffer reuses the rx buffer contents as transmit data; otherwise sync the
config cache and dispatch on the resolved chip-select capability. -/
def spi_transfer_8 (rxof : Nat → Nat) (cfgLast : Option Nat) (idx : Nat)
    (d : SpiDev) (txb rxb : Option (List Nat)) (len : Nat)
    (terminate : Bool) : TransferResult :=
  if len = 0 then ⟨0, [], d, cfgLast, []⟩
  else
    let txdata := txb.getD (rxb.getD [])
    let rxN := rxb.isSome
    let c := spi_config cfgLast idx d
    if d.cs_config ≠ PioConfig.outputHigh then
      spi_transfer_8_auto rxof c.1 c.2 d txdata rxN len terminate
    else
      spi_transfer_8_gpio rxof c.1 c.2 d txdata rxN len terminate

/-- Automatic-chip-select branch of `spi_transfer_16` after `spi_config`.
The loop runs for `(len + 1) / 2` iterations; after it, CS is negated when
terminating. -/
def spi_transfer_16_auto (rxof : Nat → Nat) (cl2 : Option Nat)
    (cfgEv : List Event) (d : SpiDev) (txdata : List Nat) (rxN : Bool)
    (len : Nat) (terminate : Bool) : TransferResult :=
  let r1 := spi_cs_assert d
  let r2 := spi_xfer16_auto_loop rxof txdata rxN len terminate r1.1 0 ((len + 1) / 2)
  let r3 := if terminate then spi_cs_negate r2.2.1 else (r2.2.1, [])
  ⟨r2.1, r2.2.2.2, r3.1, cl2, cfgEv ++ r1.2.1 ++ r2.2.2.1 ++ r3.2⟩

/-- GPIO branch of `spi_transfer_16` after `spi_config`. -/
def spi_transfer_16_gpio (rxof : Nat → Nat) (cl2 : Option Nat)
    (cfgEv : List Event) (d : SpiDev) (txdata : List Nat) (rxN : Bool)
    (len : Nat) (terminate : Bool) : TransferResult :=
  let r1 := if d.cs_mode = SpiCsMode.frame then spi_cs_assert d else (d, [], false)
  let r2 := spi_xfer16_gpio_loop rxof txdata rxN r1.1 0 ((len + 1) / 2)
  let r3 := if terminate ∧ d.cs_mode = SpiCsMode.frame then spi_cs_negate r2.2.1
            else (r2.2.1, [])
  ⟨r2.1, r2.2.2.2, r3.1, cl2, cfgEv ++ r1.2.1 ++ r2.2.2.1 ++ r3.2⟩

/-- spi_transfer_16: as `spi_transfer_8` but on the 16-bit path, where `len`
still counts bytes and the loop counter advances by 2. -/
def spi_transfer_16 (rxof : Nat → Nat) (cfgLast : Option Nat) (idx : Nat)
    (d : SpiDev) (txb rxb : Option (List Nat)) (len : Nat)
    (terminate : Bool) : TransferResult :=
  if len = 0 then ⟨0, [], d, cfgLast, []⟩
  else
    let txdata := txb.getD (rxb.getD [])
    let rxN := rxb.isSome
    let c := spi_config cfgLast idx d
    if d.cs_config ≠ PioConfig.outputHigh then
      spi_transfer_16_auto rxof c.1 c.2 d txdata rxN len terminate
    else
      spi_transfer_16_gpio rxof c.1 c.2 d txdata rxN len terminate

/-- spi_transfer: dispatch on the configured word width. -/
def spi_transfer (rxof : Nat → Nat) (cfgLast : Option Nat) (idx : Nat)
    (d : SpiDev) (txb rxb : Option (List Nat)) (len : Nat)
    (terminate : Bool) : TransferResult :=
  if d.bits ≤ 8 then spi_transfer_8 rxof cfgLast idx d txb rxb len terminate
  else spi_transfer_16 rxof cfgLast idx d txb rxb len terminate

/-- Result of `spi_xferc`: received word, final device, config cache and the
event trace. -/
structure XfercResult where
  rx : Nat
  dev : SpiDev
  cfgLast : Option Nat
  events : List Event
deriving DecidableEq

/-- spi_xferc: sync the config, assert CS, exchange one word, negate CS. -/
def spi_xferc (rxof : Nat → Nat) (cfgLast : Option Nat) (idx : Nat)
    (d : SpiDev) (ch : Nat) : XfercResult :=
  let c := spi_config cfgLast idx d
  let r1 := spi_cs_assert d
  let r2 := spi_cs_negate r1.1
  ⟨rxof 0, r2.1, c.1, c.2 ++ r1.2.1 ++ [Event.xfer d.channel ch] ++ r2.2⟩

/-- spi_getc: read one word by sending a dummy zero word. -/
def spi_getc (rxof : Nat → Nat) (cfgLast : Option Nat) (idx : Nat)
    (d : SpiDev) : XfercResult :=
  spi_xferc rxof cfgLast idx d 0

/-- spi_putc: write one word; the C code discards the received word, the
rest of the behaviour is `spi_xferc`. -/
def spi_putc (rxof : Nat → Nat) (cfgLast : Option Nat) (idx : Nat)
    (d : SpiDev) (ch : Nat) : XfercResult :=
  spi_xferc rxof cfgLast idx d ch

/-- Fixed all-zero receive oracle used for concrete witnesses. -/
def rxof0 : Nat → Nat := fun _ => 0

/-! Helper lemmas: field preservation of the chip-select helpers. -/

@[simp]
theorem spi_cs_assert_channel (d : SpiDev) : (spi_cs_assert d).1.channel = d.channel := by
  unfold spi_cs_assert
  split
  · rfl
  · dsimp only
    split <;> rfl

@[simp]
theorem spi_cs_assert_cs (d : SpiDev) : (spi_cs_assert d).1.cs = d.cs := by
  unfold spi_cs_assert
  split
  · rfl
  · dsimp only
    split <;> rfl

@[simp]
theorem spi_cs_assert_cs_mode (d : SpiDev) : (spi_cs_assert d).1.cs_mode = d.cs_mode := by
  unfold spi_cs_assert
  split
  · rfl
  · dsimp only
    split <;> rfl

@[simp]
theorem spi_cs_assert_cs_config (d : SpiDev) : (spi_cs_assert d).1.cs_config = d.cs_config := by
  unfold spi_cs_assert
  split
  · rfl
  · dsimp only
    split <;> rfl

@[simp]
theorem spi_cs_negate_channel (d : SpiDev) : (spi_cs_negate d).1.channel = d.channel := rfl

@[simp]
theorem spi_cs_negate_cs (d : SpiDev) : (spi_cs_negate d).1.cs = d.cs := rfl

@[simp]
theorem spi_cs_negate_cs_mode (d : SpiDev) : (spi_cs_negate d).1.cs_mode = d.cs_mode := rfl

@[simp]
theorem spi_cs_negate_cs_config (d : SpiDev) : (spi_cs_negate d).1.cs_config = d.cs_config := rfl

theorem SpiDev.set_cs_active_false_eq (d : SpiDev) (h : d.cs_active = false) :
    {d with cs_active := false} = d := by
  cases d
  dsimp only at h
  subst h
  rfl

theorem spi_cs_assert_of_high (d : SpiDev) (h : d.cs_mode = SpiCsMode.high) :
    spi_cs_assert d = (d, [], false) := by
  unfold spi_cs_assert
  rw [if_pos (Or.inr h)]

theorem spi_cs_assert_events (d : SpiDev) :
    (spi_cs_assert d).2.1 = [] ∨
      (∃ v, (spi_cs_assert d).2.1 = [Event.pioConfig d.cs v]) := by
  unfold spi_cs_assert
  split
  · exact Or.inl rfl
  · dsimp only
    split
    · exact Or.inr ⟨_, rfl⟩
    · exact Or.inr ⟨_, rfl⟩

theorem spi_cs_assert_filter_isXfer (d : SpiDev) :
    (spi_cs_assert d).2.1.filter Event.isXfer = [] := by
  rcases spi_cs_assert_events d with h | ⟨v, h⟩ <;> rw [h] <;> rfl

theorem spi_cs_assert_filter_isLastxfer (d : SpiDev) :
    (spi_cs_assert d).2.1.filter Event.isLastxfer = [] := by
  rcases spi_cs_assert_events d with h | ⟨v, h⟩ <;> rw [h] <;> rfl

theorem spi_cs_negate_filter_isXfer (d : SpiDev) :
    (spi_cs_negate d).2.filter Event.isXfer = [] := rfl

theorem spi_cs_negate_filter_isLastxfer (d : SpiDev) :
    (spi_cs_negate d).2.filter Event.isLastxfer = [] := rfl

/-! Helper lemmas: the register writes of `spi_config` contain no transfer,
lastxfer or pin events. -/

theorem spi_config_writes_filter_isXfer (d : SpiDev) :
    (spi_config_writes d).filter Event.isXfer = [] := rfl

theorem spi_config_writes_filter_isLastxfer (d : SpiDev) :
    (spi_config_writes d).filter Event.isLastxfer = [] := rfl

theorem spi_config_writes_filter_isPio (d : SpiDev) :
    (spi_config_writes d).filter Event.isPio = [] := rfl

theorem spi_config_filter_isXfer (cl : Option Nat) (idx : Nat) (d : SpiDev) :
    (spi_config cl idx d).2.filter Event.isXfer = [] := by
  unfold spi_config
  split
  · rfl
  · exact spi_config_writes_filter_isXfer d

theorem spi_config_filter_isLastxfer (cl : Option Nat) (idx : Nat) (d : SpiDev) :
    (spi_config cl idx d).2.filter Event.isLastxfer = [] := by
  unfold spi_config
  split
  · rfl
  · exact spi_config_writes_filter_isLastxfer d

theorem spi_config_filter_isPio (cl : Option Nat) (idx : Nat) (d : SpiDev) :
    (spi_config cl idx d).2.filter Event.isPio = [] := by
  unfold spi_config
  split
  · rfl
  · exact spi_config_writes_filter_isPio d

theorem spi_config_of_ne (cl : Option Nat) (idx : Nat) (d : SpiDev)
    (h : cl ≠ some idx) : spi_config cl idx d = (some idx, spi_config_writes d) := by
  unfold spi_config
  rw [if_neg h]

theorem spi_update_ne (idx : Nat) (cl : Option Nat) : spi_update idx cl ≠ some idx := by
  unfold spi_update
  split
  · exact fun h => Option.noConfusion h
  · assumption

/-! Discriminator evaluation lemmas. -/

@[simp]
theorem Event.isXfer_xfer (a b : Nat) : Event.isXfer (Event.xfer a b) = true := rfl

@[simp]
theorem Event.isXfer_pioConfig (p : Pio) (c : PioConfig) :
    Event.isXfer (Event.pioConfig p c) = false := rfl

@[simp]
theorem Event.isXfer_lastxfer (a : Nat) : Event.isXfer (Event.lastxfer a) = false := rfl

@[simp]
theorem Event.isLastxfer_lastxfer (a : Nat) :
    Event.isLastxfer (Event.lastxfer a) = true := rfl

@[simp]
theorem Event.isLastxfer_xfer (a b : Nat) :
    Event.isLastxfer (Event.xfer a b) = false := rfl

@[simp]
theorem Event.isLastxfer_pioConfig (p : Pio) (c : PioConfig) :
    Event.isLastxfer (Event.pioConfig p c) = false := rfl

@[simp]
theorem Event.isPio_pioConfig (p : Pio) (c : PioConfig) :
    Event.isPio (Event.pioConfig p c) = true := rfl

@[simp]
theorem Event.isPio_xfer (a b : Nat) : Event.isPio (Event.xfer a b) = false := rfl

@[simp]
theorem Event.isPio_lastxfer (a : Nat) : Event.isPio (Event.lastxfer a) = false := rfl

/-! Lemmas about the 8-bit automatic-chip-select word loop. -/

theorem spi_xfer8_auto_loop_ret (rxof : Nat → Nat) (txdata : List Nat) (rxN : Bool)
    (len : Nat) (t : Bool) :
    ∀ (n i : Nat) (d : SpiDev),
      (spi_xfer8_auto_loop rxof txdata rxN len t d i n).1 = i + n := by
  intro n
  induction n with
  | zero => intro i d; rfl
  | succ n ih =>
    intro i d
    simp only [spi_xfer8_auto_loop]
    rw [ih]
    omega

theorem spi_xfer8_auto_loop_xfer (rxof : Nat → Nat) (txdata : List Nat) (rxN : Bool)
    (len : Nat) (t : Bool) :
    ∀ (n i : Nat) (d : SpiDev),
      (spi_xfer8_auto_loop rxof txdata rxN len t d i n).2.2.1.filter Event.isXfer =
        (List.range' i n).map (fun k => Event.xfer d.channel (txdata.getD k 0)) := by
  intro n
  induction n with
  | zero => intro i d; rfl
  | succ n ih =>
    intro i d
    by_cases hc : t ∧ len - 1 ≤ i
    · simp only [spi_xfer8_auto_loop, if_pos hc, List.filter_append, ih,
        spi_cs_negate_channel, spi_cs_negate_filter_isXfer, List.range'_succ]
      simp
    · simp only [spi_xfer8_auto_loop, if_neg hc, List.filter_append, ih,
        List.range'_succ]
      simp

theorem spi_xfer8_auto_loop_rx (rxof : Nat → Nat) (txdata : List Nat) (rxN : Bool)
    (len : Nat) (t : Bool) :
    ∀ (n i : Nat) (d : SpiDev),
      (spi_xfer8_auto_loop rxof txdata rxN len t d i n).2.2.2 =
        if rxN then (List.range' i n).map rxof else [] := by
  intro n
  induction n with
  | zero => intro i d; cases rxN <;> rfl
  | succ n ih =>
    intro i d
    simp only [spi_xfer8_auto_loop, ih]
    cases rxN <;> simp [List.range'_succ]

theorem spi_xfer8_auto_loop_pio (rxof : Nat → Nat) (txdata : List Nat) (rxN : Bool)
    (len : Nat) (t : Bool) :
    ∀ (n i : Nat) (d : SpiDev) (e : Event),
      e ∈ (spi_xfer8_auto_loop rxof txdata rxN len t d i n).2.2.1 →
      Event.isPio e = true → e = Event.pioConfig d.cs PioConfig.outputHigh := by
  intro n
  induction n with
  | zero =>
    intro i d e he _
    exact absurd he (List.not_mem_nil e)
  | succ n ih =>
    intro i d e he hp
    by_cases hc : t ∧ len - 1 ≤ i
    · simp only [spi_xfer8_auto_loop, if_pos hc, List.mem_append] at he
      rcases he with (he | he) | he
      · unfold spi_cs_negate at he
        simp only [List.mem_singleton] at he
        exact he
      · simp only [List.mem_singleton] at he
        rw [he] at hp
        exact absurd hp (by simp)
      · have := ih (i + 1) (spi_cs_negate d).1 e he hp
        rwa [spi_cs_negate_cs] at this
    · simp only [spi_xfer8_auto_loop, if_neg hc, List.nil_append, List.mem_append] at he
      rcases he with he | he
      · simp only [List.mem_singleton] at he
        rw [he] at hp
        exact absurd hp (by simp)
      · exact ih (i + 1) d e he hp

/-! Lemmas about the 16-bit automatic-chip-select word loop. -/

theorem spi_xfer16_auto_loop_ret (rxof : Nat → Nat) (txdata : List Nat) (rxN : Bool)
    (len : Nat) (t : Bool) :
    ∀ (n i : Nat) (d : SpiDev),
      (spi_xfer16_auto_loop rxof txdata rxN len t d i n).1 = i + 2 * n := by
  intro n
  induction n with
  | zero => intro i d; rfl
  | succ n ih =>
    intro i d
    simp only [spi_xfer16_auto_loop]
    rw [ih]
    omega

theorem spi_xfer16_auto_loop_xfer (rxof : Nat → Nat) (txdata : List Nat) (rxN : Bool)
    (len : Nat) (t : Bool) :
    ∀ (n i : Nat) (d : SpiDev),
      (spi_xfer16_auto_loop rxof txdata rxN len t d i n).2.2.1.filter Event.isXfer =
        (List.range' (i / 2) n).map (fun k => Event.xfer d.channel (txdata.getD k 0)) := by
  intro n
  induction n with
  | zero => intro i d; rfl
  | succ n ih =>
    intro i d
    have hstep : (i + 2) / 2 = i / 2 + 1 := Nat.add_div_right i (by omega)
    by_cases hc : t ∧ len - 1 ≤ i
    · simp only [spi_xfer16_auto_loop, if_pos hc, List.filter_append, ih, hstep,
        List.range'_succ]
      simp
    · simp only [spi_xfer16_auto_loop, if_neg hc, List.filter_append, ih, hstep,
        List.range'_succ]
      simp

theorem spi_xfer16_auto_loop_rx (rxof : Nat → Nat) (txdata : List Nat) (rxN : Bool)
    (len : Nat) (t : Bool) :
    ∀ (n i : Nat) (d : SpiDev),
      (spi_xfer16_auto_loop rxof txdata rxN len t d i n).2.2.2 =
        if rxN then (List.range' (i / 2) n).map rxof else [] := by
  intro n
  induction n with
  | zero => intro i d; cases rxN <;> rfl
  | succ n ih =>
    intro i d
    have hstep : (i + 2) / 2 = i / 2 + 1 := Nat.add_div_right i (by omega)
    simp only [spi_xfer16_auto_loop, ih, hstep]
    cases rxN <;> simp [List.range'_succ]

theorem spi_xfer16_auto_loop_lastxfer_bounded (rxof : Nat → Nat) (txdata : List Nat)
    (rxN : Bool) (len : Nat) (t : Bool) :
    ∀ (n i : Nat) (d : SpiDev), i + 2 * n ≤ len →
      (spi_xfer16_auto_loop rxof txdata rxN len t d i n).2.2.1.filter
        Event.isLastxfer = [] := by
  intro n
  induction n with
  | zero => intro i d _; rfl
  | succ n ih =>
    intro i d hb
    have hno : ¬(t ∧ len - 1 ≤ i) := by
      intro h
      omega
    simp only [spi_xfer16_auto_loop, if_neg hno, List.nil_append, List.filter_append,
      ih (i + 2) d (by omega)]
    simp

theorem spi_xfer16_auto_loop_lastxfer_odd (rxof : Nat → Nat) (txdata : List Nat)
    (rxN : Bool) (len : Nat) :
    ∀ (n i : Nat) (d : SpiDev), 0 < n → i + 2 * n = len + 1 → i % 2 = 0 →
      len % 2 = 1 →
      (spi_xfer16_auto_loop rxof txdata rxN len true d i n).2.2.1.filter
        Event.isLastxfer = [Event.lastxfer d.channel] := by
  intro n
  induction n with
  | zero =>
    intro i d hpos _ _ _
    omega
  | succ n ih =>
    intro i d _ hb hi hl
    by_cases hn : n = 0
    · subst hn
      have hcond : True ∧ len - 1 ≤ i := by
        constructor
        · trivial
        · omega
      simp only [spi_xfer16_auto_loop, if_pos hcond, List.filter_append]
      simp
    · have hno : ¬(True ∧ len - 1 ≤ i) := by
        intro h
        omega
      simp only [spi_xfer16_auto_loop, if_neg hno, List.nil_append, List.filter_append,
        ih (i + 2) d (by omega) (by omega) (by omega) hl]
      simp

theorem spi_xfer16_auto_loop_pio (rxof : Nat → Nat) (txdata : List Nat) (rxN : Bool)
    (len : Nat) (t : Bool) :
    ∀ (n i : Nat) (d : SpiDev),
      (spi_xfer16_auto_loop rxof txdata rxN len t d i n).2.2.1.filter Event.isPio
        = [] := by
  intro n
  induction n with
  | zero => intro i d; rfl
  | succ n ih =>
    intro i d
    by_cases hc : t ∧ len - 1 ≤ i
    · simp only [spi_xfer16_auto_loop, if_pos hc, List.filter_append, ih]
      simp
    · simp only [spi_xfer16_auto_loop, if_neg hc, List.filter_append, ih]
      simp

theorem spi_xfer16_auto_loop_dev (rxof : Nat → Nat) (txdata : List Nat) (rxN : Bool)
    (len : Nat) (t : Bool) :
    ∀ (n i : Nat) (d : SpiDev),
      (spi_xfer16_auto_loop rxof txdata rxN len t d i n).2.1 = d := by
  intro n
  induction n with
  | zero => intro i d; rfl
  | succ n ih =>
    intro i d
    simp only [spi_xfer16_auto_loop, ih]

/-! Lemmas about the GPIO (bit-banged chip select) word loops. -/

theorem spi_cs_assert_toggle (d : SpiDev) (hm : d.cs_mode = SpiCsMode.toggle)
    (ha : d.cs_active = false) (hc : d.cs_config = PioConfig.outputHigh) :
    spi_cs_assert d =
      ({d with cs_active := true}, [Event.pioConfig d.cs PioConfig.outputLow], false) := by
  unfold spi_cs_assert
  rw [if_neg (by simp [ha, hm])]
  dsimp only
  rw [if_pos hc]

theorem spi_cs_negate_after_assert (d : SpiDev) (ha : d.cs_active = false) :
    spi_cs_negate {d with cs_active := true} =
      (d, [Event.pioConfig d.cs PioConfig.outputHigh]) := by
  cases d
  dsimp only at ha
  subst ha
  rfl

theorem spi_xfer8_gpio_loop_ret (rxof : Nat → Nat) (txdata : List Nat) (rxN : Bool) :
    ∀ (n i : Nat) (d : SpiDev),
      (spi_xfer8_gpio_loop rxof txdata rxN d i n).1 = i + n := by
  intro n
  induction n with
  | zero => intro i d; rfl
  | succ n ih =>
    intro i d
    simp only [spi_xfer8_gpio_loop]
    rw [ih]
    omega

theorem spi_xfer8_gpio_loop_xfer (rxof : Nat → Nat) (txdata : List Nat) (rxN : Bool) :
    ∀ (n i : Nat) (d : SpiDev),
      (spi_xfer8_gpio_loop rxof txdata rxN d i n).2.2.1.filter Event.isXfer =
        (List.range' i n).map (fun k => Event.xfer d.channel (txdata.getD k 0)) := by
  intro n
  induction n with
  | zero => intro i d; rfl
  | succ n ih =>
    intro i d
    by_cases htog : d.cs_mode = SpiCsMode.toggle
    · simp only [spi_xfer8_gpio_loop, spi_cs_assert_cs_mode, htog, if_true,
        List.filter_append, ih, spi_cs_negate_channel, spi_cs_assert_channel,
        spi_cs_assert_filter_isXfer, spi_cs_negate_filter_isXfer, List.range'_succ]
      simp
    · simp only [spi_xfer8_gpio_loop, spi_cs_assert_cs_mode, if_neg htog,
        List.filter_append, ih, List.range'_succ]
      simp

theorem spi_xfer8_gpio_loop_rx (rxof : Nat → Nat) (txdata : List Nat) (rxN : Bool) :
    ∀ (n i : Nat) (d : SpiDev),
      (spi_xfer8_gpio_loop rxof txdata rxN d i n).2.2.2 =
        if rxN then (List.range' i n).map rxof else [] := by
  intro n
  induction n with
  | zero => intro i d; cases rxN <;> rfl
  | succ n ih =>
    intro i d
    simp only [spi_xfer8_gpio_loop, ih]
    cases rxN <;> simp [List.range'_succ]

theorem spi_xfer8_gpio_loop_no_toggle (rxof : Nat → Nat) (txdata : List Nat)
    (rxN : Bool) :
    ∀ (n i : Nat) (d : SpiDev), d.cs_mode ≠ SpiCsMode.toggle →
      spi_xfer8_gpio_loop rxof txdata rxN d i n =
        (i + n, d,
         (List.range' i n).map (fun k => Event.xfer d.channel (txdata.getD k 0)),
         if rxN then (List.range' i n).map rxof else []) := by
  intro n
  induction n with
  | zero =>
    intro i d _
    cases rxN <;> rfl
  | succ n ih =>
    intro i d hm
    simp only [spi_xfer8_gpio_loop, if_neg hm, ih (i + 1) d hm, List.range'_succ]
    cases rxN <;> simp <;> omega

theorem spi_xfer8_gpio_loop_toggle (rxof : Nat → Nat) (txdata : List Nat)
    (rxN : Bool) :
    ∀ (n i : Nat) (d : SpiDev), d.cs_mode = SpiCsMode.toggle →
      d.cs_active = false → d.cs_config = PioConfig.outputHigh →
      spi_xfer8_gpio_loop rxof txdata rxN d i n =
        (i + n, d,
         (List.range' i n).flatMap (fun k =>
           [Event.pioConfig d.cs PioConfig.outputLow,
            Event.xfer d.channel (txdata.getD k 0),
            Event.pioConfig d.cs PioConfig.outputHigh]),
         if rxN then (List.range' i n).map rxof else []) := by
  intro n
  induction n with
  | zero =>
    intro i d _ _ _
    cases rxN <;> rfl
  | succ n ih =>
    intro i d hm ha hc
    have hm1 : ({d with cs_active := true} : SpiDev).cs_mode = SpiCsMode.toggle := hm
    simp only [spi_xfer8_gpio_loop, if_pos hm, spi_cs_assert_toggle d hm ha hc,
      hm1, if_pos, spi_cs_negate_after_assert d ha, ih (i + 1) d hm ha hc,
      List.range'_succ]
    cases rxN <;> simp <;> omega

theorem spi_xfer16_gpio_loop_ret (rxof : Nat → Nat) (txdata : List Nat) (rxN : Bool) :
    ∀ (n i : Nat) (d : SpiDev),
      (spi_xfer16_gpio_loop rxof txdata rxN d i n).1 = i + 2 * n := by
  intro n
  induction n with
  | zero => intro i d; rfl
  | succ n ih =>
    intro i d
    simp only [spi_xfer16_gpio_loop]
    rw [ih]
    omega

theorem spi_xfer16_gpio_loop_xfer (rxof : Nat → Nat) (txdata : List Nat) (rxN : Bool) :
    ∀ (n i : Nat) (d : SpiDev),
      (spi_xfer16_gpio_loop rxof txdata rxN d i n).2.2.1.filter Event.isXfer =
        (List.range' (i / 2) n).map (fun k => Event.xfer d.channel (txdata.getD k 0)) := by
  intro n
  induction n with
  | zero => intro i d; rfl
  | succ n ih =>
    intro i d
    have hstep : (i + 2) / 2 = i / 2 + 1 := Nat.add_div_right i (by omega)
    by_cases htog : d.cs_mode = SpiCsMode.toggle
    · simp only [spi_xfer16_gpio_loop, spi_cs_assert_cs_mode, htog, if_true,
        List.filter_append, ih, spi_cs_negate_channel, spi_cs_assert_channel,
        spi_cs_assert_filter_isXfer, spi_cs_negate_filter_isXfer, hstep,
        List.range'_succ]
      simp
    · simp only [spi_xfer16_gpio_loop, spi_cs_assert_cs_mode, if_neg htog,
        List.filter_append, ih, hstep, List.range'_succ]
      simp

theorem spi_xfer16_gpio_loop_rx (rxof : Nat → Nat) (txdata : List Nat) (rxN : Bool) :
    ∀ (n i : Nat) (d : SpiDev),
      (spi_xfer16_gpio_loop rxof txdata rxN d i n).2.2.2 =
        if rxN then (List.range' (i / 2) n).map rxof else [] := by
  intro n
  induction n with
  | zero => intro i d; cases rxN <;> rfl
  | succ n ih =>
    intro i d
    have hstep : (i + 2) / 2 = i / 2 + 1 := Nat.add_div_right i (by omega)
    simp only [spi_xfer16_gpio_loop, ih, hstep]
    cases rxN <;> simp [List.range'_succ]

theorem spi_xfer16_gpio_loop_lastxfer (rxof : Nat → Nat) (txdata : List Nat)
    (rxN : Bool) :
    ∀ (n i : Nat) (d : SpiDev),
      (spi_xfer16_gpio_loop rxof txdata rxN d i n).2.2.1.filter
        Event.isLastxfer = [] := by
  intro n
  induction n with
  | zero => intro i d; rfl
  | succ n ih =>
    intro i d
    simp only [spi_xfer16_gpio_loop, List.filter_append, ih]
    rcases spi_cs_assert_events (if d.cs_mode = SpiCsMode.toggle then spi_cs_assert d
      else (d, [], false)).1 with h | ⟨v, h⟩
    all_goals
      by_cases htog : d.cs_mode = SpiCsMode.toggle <;>
        simp [htog, spi_cs_assert_filter_isLastxfer, spi_cs_negate_filter_isLastxfer]

theorem spi_xfer16_gpio_loop_no_toggle (rxof : Nat → Nat) (txdata : List Nat)
    (rxN : Bool) :
    ∀ (n i : Nat) (d : SpiDev), d.cs_mode ≠ SpiCsMode.toggle →
      spi_xfer16_gpio_loop rxof txdata rxN d i n =
        (i + 2 * n, d,
         (List.range' (i / 2) n).map (fun k => Event.xfer d.channel (txdata.getD k 0)),
         if rxN then (List.range' (i / 2) n).map rxof else []) := by
  intro n
  induction n with
  | zero =>
    intro i d _
    cases rxN <;> rfl
  | succ n ih =>
    intro i d hm
    have hstep : (i + 2) / 2 = i / 2 + 1 := Nat.add_div_right i (by omega)
    simp only [spi_xfer16_gpio_loop, if_neg hm, ih (i + 2) d hm, hstep,
      List.range'_succ]
    cases rxN <;> simp <;> omega

/-! Small append helpers used to exhibit the config-write prefix of a
transfer trace. -/

theorem append_rest3 {α : Type} (x a b : List α) : ∃ r, (x ++ a) ++ b = x ++ r :=
  ⟨a ++ b, by rw [List.append_assoc]⟩

theorem append_rest4 {α : Type} (x a b c : List α) :
    ∃ r, ((x ++ a) ++ b) ++ c = x ++ r :=
  ⟨a ++ (b ++ c), by rw [List.append_assoc, List.append_assoc]⟩

/-- C2: `spi_config` performs zero register writes when the device is the
cached one; otherwise it writes the channel-select mapping, the chip-select
timing (CSAAT set exactly when the framing mode is FRAME), the clock
phase/polarity, the word width, the clock divisor, the pre-clock delay and
the inter-transfer delay, in that order, and records the device as cached;
in particular switching between two different devices always triggers the
full rewrite, whatever their settings. -/
theorem C2_config_cache :
    (∀ (idx : Nat) (d : SpiDev), spi_config (some idx) idx d = (some idx, [])) ∧
    (∀ (cl : Option Nat) (idx : Nat) (d : SpiDev), cl ≠ some idx →
      spi_config cl idx d =
        (some idx,
         [Event.mrChannelSelect d.channel (spiChannelMask d.channel),
          Event.csrCsMode d.channel
            (if d.cs_mode = SpiCsMode.frame then true else false),
          Event.csrMode d.channel (spiModeCpol d.mode) (spiModeNcpha d.mode),
          Event.csrBits d.channel (d.bits - 8),
          Event.csrDivisor d.channel d.clock_divisor,
          Event.csrClockDelay d.channel d.cs_assert_delay,
          Event.csrDelay d.channel ((d.cs_negate_delay + 31) / 32)])) ∧
    (∀ (i j : Nat) (d : SpiDev), j ≠ i →
      spi_config (some j) i d = (some i, spi_config_writes d)) := by
  refine ⟨?_, ?_, ?_⟩
  · intro idx d
    unfold spi_config
    rw [if_pos rfl]
  · intro cl idx d h
    rw [spi_config_of_ne cl idx d h]
    rfl
  · intro i j d h
    exact spi_config_of_ne _ _ _ (fun hc => h (Option.some.inj hc))

/-- C2 witness. -/
theorem C2_config_cache_witness :
    spi_config (some 1) 0
      ⟨0, ⟨0, 2 ^ 11⟩, PioConfig.periphA, SpiMode.mode0, 8, 1, 0, 0,
       SpiCsMode.frame, false⟩ =
      (some 0,
       [Event.mrChannelSelect 0 14, Event.csrCsMode 0 true,
        Event.csrMode 0 false true, Event.csrBits 0 0, Event.csrDivisor 0 1,
        Event.csrClockDelay 0 0, Event.csrDelay 0 0]) := by
  have h := C2_config_cache.2.1 (some 1) 0
    ⟨0, ⟨0, 2 ^ 11⟩, PioConfig.periphA, SpiMode.mode0, 8, 1, 0, 0,
     SpiCsMode.frame, false⟩ (by decide)
  rw [h]
  rfl

/-- C3: every parameter setter invalidates the config cache for the mutated
device: after any setter runs on device `idx`, the cache no longer names
`idx`, so the next `spi_config` call for it performs the full rewrite. -/
theorem C3_setters_invalidate (fcpu idx : Nat) (cl : Option Nat) (d : SpiDev)
    (v : Nat) (m : SpiMode) (cm : SpiCsMode) :
    (spi_clock_divisor_set idx cl d v).2 ≠ some idx ∧
    (spi_clock_speed_set fcpu idx cl d v).2.1 ≠ some idx ∧
    (spi_mode_set idx cl d m).2 ≠ some idx ∧
    (spi_bits_set idx cl d v).2 ≠ some idx ∧
    (spi_cs_mode_set idx cl d cm).2 ≠ some idx ∧
    (spi_cs_assert_delay_set idx cl d v).2 ≠ some idx ∧
    (spi_cs_negate_delay_set idx cl d v).2 ≠ some idx :=
  ⟨spi_update_ne idx cl, spi_update_ne idx cl, spi_update_ne idx cl,
   spi_update_ne idx cl, spi_update_ne idx cl, spi_update_ne idx cl,
   spi_update_ne idx cl⟩

/-- C3 witness. -/
theorem C3_setters_invalidate_witness :
    (spi_bits_set 0 (some 0)
      ⟨0, ⟨0, 2 ^ 11⟩, PioConfig.periphA, SpiMode.mode0, 8, 1, 0, 0,
       SpiCsMode.frame, false⟩ 16).2 ≠ some 0 :=
  (C3_setters_invalidate 1 0 (some 0)
    ⟨0, ⟨0, 2 ^ 11⟩, PioConfig.periphA, SpiMode.mode0, 8, 1, 0, 0,
     SpiCsMode.frame, false⟩ 16 SpiMode.mode0 SpiCsMode.frame).2.2.2.1

/-- C7: the controller is powered exactly while the enabled set is
non-empty: waking an already-awake device does nothing; waking into a
non-empty set only sets the bit; waking from the empty set performs the
hardware bring-up; shutting down an asleep device is a no-op; shutting down
with other devices still awake only clears the bit and the config cache;
the last shutdown performs the tear-down and drives every registered
device's chip-select pin to the low (unpowered) drive state. -/
theorem C7_power_lifecycle :
    (∀ (enabled idx : Nat), enabled &&& 2 ^ idx ≠ 0 →
       spi_wakeup enabled idx = (enabled, [])) ∧
    (∀ (enabled idx : Nat), enabled &&& 2 ^ idx = 0 → enabled ≠ 0 →
       spi_wakeup enabled idx = (enabled ||| 2 ^ idx, [])) ∧
    (∀ idx : Nat, spi_wakeup 0 idx = (2 ^ idx, bringupEvents)) ∧
    (∀ (devs : List SpiDev) (cl : Option Nat) (enabled idx : Nat),
       enabled &&& 2 ^ idx = 0 →
       spi_shutdown devs cl enabled idx = (cl, enabled, [])) ∧
    (∀ (devs : List SpiDev) (cl : Option Nat) (enabled idx : Nat),
       enabled &&& 2 ^ idx ≠ 0 → enabled ^^^ 2 ^ idx ≠ 0 →
       spi_shutdown devs cl enabled idx = (none, enabled ^^^ 2 ^ idx, [])) ∧
    (∀ (devs : List SpiDev) (cl : Option Nat) (idx : Nat),
       spi_shutdown devs cl (2 ^ idx) idx =
         (none, 0,
          teardownEvents ++
            devs.map (fun d => Event.pioConfig d.cs PioConfig.outputLow))) := by
  refine ⟨?_, ?_, ?_, ?_, ?_, ?_⟩
  · intro enabled idx h
    unfold spi_wakeup
    rw [if_pos h]
  · intro enabled idx h h0
    unfold spi_wakeup
    rw [if_neg (by simp [h])]
    dsimp only
    rw [if_neg h0]
  · intro idx
    unfold spi_wakeup
    rw [if_neg (by simp)]
    dsimp only
    rw [if_pos rfl]
    simp
  · intro devs cl enabled idx h
    unfold spi_shutdown
    rw [if_pos h]
  · intro devs cl enabled idx h h2
    unfold spi_shutdown
    rw [if_neg h]
    dsimp only
    rw [if_neg h2]
  · intro devs cl idx
    have h2 : (2 : Nat) ^ idx ≠ 0 := (pow_pos (by norm_num : (0 : ℕ) < 2) idx).ne'
    unfold spi_shutdown
    rw [if_neg (by rw [Nat.and_self]; exact h2)]
    dsimp only
    rw [Nat.xor_self, if_pos rfl]

/-- C7 witness. -/
theorem C7_power_lifecycle_witness :
    spi_wakeup 1 0 = (1, []) ∧ spi_wakeup 0 0 = (1, bringupEvents) ∧
      spi_shutdown [] none 3 0 = (none, 2, []) := by
  refine ⟨C7_power_lifecycle.1 1 0 (by decide), ?_, ?_⟩
  · have h := C7_power_lifecycle.2.2.1 0
    simpa using h
  · have h := C7_power_lifecycle.2.2.2.2.1 [] none 3 0 (by decide) (by decide)
    simpa using h

/-- C9: every effective shutdown (device currently awake) clears the config
cache reference, even when other devices remain awake; consequently the next
transfer by any device with an empty cache starts with the full register
rewrite of `spi_config_writes`. -/
theorem C9_shutdown_clears_cache :
    (∀ (devs : List SpiDev) (cl : Option Nat) (enabled idx : Nat),
       enabled &&& 2 ^ idx ≠ 0 →
       (spi_shutdown devs cl enabled idx).1 = none) ∧
    (∀ (rxof : Nat → Nat) (idx : Nat) (d : SpiDev) (txb rxb : Option (List Nat))
       (len : Nat) (t : Bool), 0 < len →
       ∃ rest, (spi_transfer rxof none idx d txb rxb len t).events =
         spi_config_writes d ++ rest) := by
  constructor
  · intro devs cl enabled idx h
    unfold spi_shutdown
    rw [if_neg h]
    dsimp only
    split <;> rfl
  · intro rxof idx d txb rxb len t hlen
    have hcfg : spi_config none idx d = (some idx, spi_config_writes d) :=
      spi_config_of_ne _ _ _ (by simp)
    unfold spi_transfer
    by_cases hb : d.bits ≤ 8
    · rw [if_pos hb]
      unfold spi_transfer_8
      rw [if_neg (by omega)]
      dsimp only
      rw [hcfg]
      by_cases hcs : d.cs_config ≠ PioConfig.outputHigh
      · rw [if_pos hcs]
        unfold spi_transfer_8_auto
        dsimp only
        exact append_rest3 _ _ _
      · rw [if_neg hcs]
        unfold spi_transfer_8_gpio
        dsimp only
        exact append_rest4 _ _ _ _
    · rw [if_neg hb]
      unfold spi_transfer_16
      rw [if_neg (by omega)]
      dsimp only
      rw [hcfg]
      by_cases hcs : d.cs_config ≠ PioConfig.outputHigh
      · rw [if_pos hcs]
        unfold spi_transfer_16_auto
        dsimp only
        exact append_rest4 _ _ _ _
      · rw [if_neg hcs]
        unfold spi_transfer_16_gpio
        dsimp only
        exact append_rest4 _ _ _ _

/-- C9 witness. -/
theorem C9_shutdown_clears_cache_witness :
    (spi_shutdown [] (some 0) 3 0).1 = none ∧
      ∃ rest,
        (spi_transfer rxof0 none 0
          ⟨0, ⟨0, 2 ^ 11⟩, PioConfig.periphA, SpiMode.mode0, 8, 1, 0, 0,
           SpiCsMode.frame, false⟩ (some [1]) none 1 true).events =
        spi_config_writes
          ⟨0, ⟨0, 2 ^ 11⟩, PioConfig.periphA, SpiMode.mode0, 8, 1, 0, 0,
           SpiCsMode.frame, false⟩ ++ rest :=
  ⟨C9_shutdown_clears_cache.1 [] (some 0) 3 0 (by decide),
   C9_shutdown_clears_cache.2 rxof0 0 _ (some [1]) none 1 true (by decide)⟩

/-- C10: the stored clock divisor is never 0: a zero argument is clamped to
1 and a positive argument is stored as is; for `0 < s ≤ F_CPU`,
`spi_clock_speed_set` stores the ceiling divisor `(F_CPU + s - 1) / s`
(characterised as the least divisor `q` with `F_CPU ≤ q * s`) and returns
the achieved speed `F_CPU / q`, which never exceeds the requested `s`. -/
theorem C10_clock_divisor (fcpu idx : Nat) (cl : Option Nat) (d : SpiDev) :
    ((spi_clock_divisor_set idx cl d 0).1.clock_divisor = 1) ∧
    (∀ v, 0 < v → (spi_clock_divisor_set idx cl d v).1.clock_divisor = v) ∧
    (∀ s, 0 < s → s ≤ fcpu →
      (spi_clock_speed_set fcpu idx cl d s).1.clock_divisor = (fcpu + s - 1) / s ∧
      fcpu ≤ ((fcpu + s - 1) / s) * s ∧
      ((fcpu + s - 1) / s - 1) * s < fcpu ∧
      (spi_clock_speed_set fcpu idx cl d s).2.2 = fcpu / ((fcpu + s - 1) / s) ∧
      (spi_clock_speed_set fcpu idx cl d s).2.2 ≤ s) := by
  refine ⟨rfl, ?_, ?_⟩
  · intro v hv
    unfold spi_clock_divisor_set
    dsimp only
    rw [if_neg hv.ne']
  · intro s hs hsf
    have hq : (fcpu + s - 1) / s = (fcpu - 1) / s + 1 := by
      rw [show fcpu + s - 1 = (fcpu - 1) + s by omega]
      exact Nat.add_div_right _ hs
    have hqpos : 0 < (fcpu + s - 1) / s := by
      rw [hq]
      exact Nat.succ_pos _
    have hstore : (spi_clock_speed_set fcpu idx cl d s).1.clock_divisor =
        (fcpu + s - 1) / s := by
      unfold spi_clock_speed_set spi_clock_divisor_set
      dsimp only
      rw [if_neg hqpos.ne']
    have hach : (spi_clock_speed_set fcpu idx cl d s).2.2 =
        fcpu / ((fcpu + s - 1) / s) := by
      unfold spi_clock_speed_set spi_clock_divisor_set
      dsimp only
      rw [if_neg hqpos.ne']
    have hge : fcpu ≤ ((fcpu + s - 1) / s) * s := by
      have h2 : (fcpu - 1) / s < (fcpu + s - 1) / s := by
        rw [hq]
        omega
      have h3 := (Nat.div_lt_iff_lt_mul hs).1 h2
      exact Nat.le_of_pred_lt h3
    have hlt : ((fcpu + s - 1) / s - 1) * s < fcpu := by
      rw [hq]
      simp only [Nat.add_sub_cancel]
      have h4 := Nat.div_mul_le_self (fcpu - 1) s
      exact lt_of_le_of_lt h4 (Nat.sub_lt (by omega) (by omega))
    have hle : fcpu / ((fcpu + s - 1) / s) ≤ s := by
      calc fcpu / ((fcpu + s - 1) / s)
          ≤ ((fcpu + s - 1) / s) * s / ((fcpu + s - 1) / s) :=
            Nat.div_le_div_right hge
        _ = s := Nat.mul_div_cancel_left s hqpos
    refine ⟨hstore, hge, hlt, hach, ?_⟩
    rw [hach]
    exact hle

/-- C10 witness: with `F_CPU = 10` and requested speed 3 the stored divisor
is 4 and the achieved speed 2 does not exceed the request. -/
theorem C10_clock_divisor_witness :
    (spi_clock_speed_set 10 0 none
      ⟨0, ⟨0, 2 ^ 11⟩, PioConfig.periphA, SpiMode.mode0, 8, 1, 0, 0,
       SpiCsMode.frame, false⟩ 3).1.clock_divisor = 4 ∧
    (spi_clock_speed_set 10 0 none
      ⟨0, ⟨0, 2 ^ 11⟩, PioConfig.periphA, SpiMode.mode0, 8, 1, 0, 0,
       SpiCsMode.frame, false⟩ 3).2.2 ≤ 3 := by
  have h := (C10_clock_divisor 10 0 none
    ⟨0, ⟨0, 2 ^ 11⟩, PioConfig.periphA, SpiMode.mode0, 8, 1, 0, 0,
     SpiCsMode.frame, false⟩).2.2 3 (by decide) (by decide)
  exact ⟨by rw [h.1], h.2.2.2.2⟩

/-! Transfer-level specifications of return value, word order and receive
order, shared by several claims. -/

theorem spi_transfer_8_spec (rxof : Nat → Nat) (cl : Option Nat) (idx : Nat)
    (d : SpiDev) (txb rxb : Option (List Nat)) (len : Nat) (t : Bool)
    (hlen : 0 < len) :
    (spi_transfer_8 rxof cl idx d txb rxb len t).ret = len ∧
    (spi_transfer_8 rxof cl idx d txb rxb len t).events.filter Event.isXfer =
      (List.range len).map (fun k =>
        Event.xfer d.channel ((txb.getD (rxb.getD [])).getD k 0)) ∧
    (rxb.isSome = true →
      (spi_transfer_8 rxof cl idx d txb rxb len t).rx =
        (List.range len).map rxof) := by
  unfold spi_transfer_8
  rw [if_neg hlen.ne']
  dsimp only
  by_cases hcs : d.cs_config ≠ PioConfig.outputHigh
  · rw [if_pos hcs]
    unfold spi_transfer_8_auto
    dsimp only
    refine ⟨?_, ?_, ?_⟩
    · rw [spi_xfer8_auto_loop_ret]
      exact Nat.zero_add len
    · simp only [List.filter_append, spi_config_filter_isXfer,
        spi_cs_assert_filter_isXfer, spi_xfer8_auto_loop_xfer,
        spi_cs_assert_channel, List.nil_append, List.range_eq_range']
    · intro hrx
      rw [spi_xfer8_auto_loop_rx]
      simp [hrx, List.range_eq_range']
  · rw [if_neg hcs]
    unfold spi_transfer_8_gpio
    dsimp only
    have h1 : (if d.cs_mode = SpiCsMode.frame then spi_cs_assert d
        else (d, [], false)).2.1.filter Event.isXfer = [] := by
      split
      · exact spi_cs_assert_filter_isXfer d
      · rfl
    have h2 : (if d.cs_mode = SpiCsMode.frame then spi_cs_assert d
        else (d, [], false)).1.channel = d.channel := by
      split
      · exact spi_cs_assert_channel d
      · rfl
    have h3 : ∀ dv : SpiDev,
        (if t ∧ d.cs_mode = SpiCsMode.frame then spi_cs_negate dv
          else (dv, [])).2.filter Event.isXfer = [] := by
      intro dv
      split
      · exact spi_cs_negate_filter_isXfer dv
      · rfl
    refine ⟨?_, ?_, ?_⟩
    · rw [spi_xfer8_gpio_loop_ret]
      exact Nat.zero_add len
    · simp only [List.filter_append, spi_config_filter_isXfer, h1, h3,
        spi_xfer8_gpio_loop_xfer, h2, List.nil_append, List.append_nil,
        List.range_eq_range']
    · intro hrx
      rw [spi_xfer8_gpio_loop_rx]
      simp [hrx, List.range_eq_range']

theorem spi_transfer_16_spec (rxof : Nat → Nat) (cl : Option Nat) (idx : Nat)
    (d : SpiDev) (txb rxb : Option (List Nat)) (len : Nat) (t : Bool)
    (hlen : 0 < len) :
    (spi_transfer_16 rxof cl idx d txb rxb len t).ret = 2 * ((len + 1) / 2) ∧
    (spi_transfer_16 rxof cl idx d txb rxb len t).events.filter Event.isXfer =
      (List.range ((len + 1) / 2)).map (fun k =>
        Event.xfer d.channel ((txb.getD (rxb.getD [])).getD k 0)) ∧
    (rxb.isSome = true →
      (spi_transfer_16 rxof cl idx d txb rxb len t).rx =
        (List.range ((len + 1) / 2)).map rxof) := by
  unfold spi_transfer_16
  rw [if_neg hlen.ne']
  dsimp only
  by_cases hcs : d.cs_config ≠ PioConfig.outputHigh
  · rw [if_pos hcs]
    unfold spi_transfer_16_auto
    dsimp only
    have h3 : ∀ dv : SpiDev,
        (if t = true then spi_cs_negate dv else (dv, [])).2.filter
          Event.isXfer = [] := by
      intro dv
      split
      · exact spi_cs_negate_filter_isXfer dv
      · rfl
    refine ⟨?_, ?_, ?_⟩
    · rw [spi_xfer16_auto_loop_ret]
      exact Nat.zero_add _
    · simp only [List.filter_append, spi_config_filter_isXfer,
        spi_cs_assert_filter_isXfer, spi_xfer16_auto_loop_xfer,
        spi_cs_assert_channel, h3, List.nil_append, List.append_nil,
        Nat.zero_div, List.range_eq_range']
    · intro hrx
      rw [spi_xfer16_auto_loop_rx]
      simp [hrx, List.range_eq_range']
  · rw [if_neg hcs]
    unfold spi_transfer_16_gpio
    dsimp only
    have h1 : (if d.cs_mode = SpiCsMode.frame then spi_cs_assert d
        else (d, [], false)).2.1.filter Event.isXfer = [] := by
      split
      · exact spi_cs_assert_filter_isXfer d
      · rfl
    have h2 : (if d.cs_mode = SpiCsMode.frame then spi_cs_assert d
        else (d, [], false)).1.channel = d.channel := by
      split
      · exact spi_cs_assert_channel d
      · rfl
    have h3 : ∀ dv : SpiDev,
        (if t ∧ d.cs_mode = SpiCsMode.frame then spi_cs_negate dv
          else (dv, [])).2.filter Event.isXfer = [] := by
      intro dv
      split
      · exact spi_cs_negate_filter_isXfer dv
      · rfl
    refine ⟨?_, ?_, ?_⟩
    · rw [spi_xfer16_gpio_loop_ret]
      exact Nat.zero_add _
    · simp only [List.filter_append, spi_config_filter_isXfer, h1, h3,
        spi_xfer16_gpio_loop_xfer, h2, List.nil_append, List.append_nil,
        Nat.zero_div, List.range_eq_range']
    · intro hrx
      rw [spi_xfer16_gpio_loop_rx]
      simp [hrx, List.range_eq_range']

/-- C1 (amended): `spi_transfer` with length 0 returns 0 immediately with no
hardware access.  For `N > 0` on the 8-bit path (`bits <= 8`) it returns
exactly `N`, clocks the `N` words of the tx buffer strictly in increasing
index order, and stores the received words into the rx buffer in the same
order when it is non-null.  On the 16-bit path `len` counts bytes: the call
clocks the `(N + 1) / 2` 16-bit words in increasing index order and returns
`2 * ((N + 1) / 2)` (equal to `N` only when `N` is even; `N + 1` when odd). -/
theorem C1_transfer_order (rxof : Nat → Nat) (cl : Option Nat) (idx : Nat)
    (d : SpiDev) (txb rxb : Option (List Nat)) (len : Nat) (t : Bool) :
    (spi_transfer rxof cl idx d txb rxb 0 t = ⟨0, [], d, cl, []⟩) ∧
    (d.bits ≤ 8 → 0 < len →
      (spi_transfer rxof cl idx d txb rxb len t).ret = len ∧
      (spi_transfer rxof cl idx d txb rxb len t).events.filter Event.isXfer =
        (List.range len).map (fun k =>
          Event.xfer d.channel ((txb.getD (rxb.getD [])).getD k 0)) ∧
      (rxb.isSome = true →
        (spi_transfer rxof cl idx d txb rxb len t).rx =
          (List.range len).map rxof)) ∧
    (8 < d.bits → 0 < len →
      (spi_transfer rxof cl idx d txb rxb len t).ret = 2 * ((len + 1) / 2) ∧
      (spi_transfer rxof cl idx d txb rxb len t).events.filter Event.isXfer =
        (List.range ((len + 1) / 2)).map (fun k =>
          Event.xfer d.channel ((txb.getD (rxb.getD [])).getD k 0)) ∧
      (rxb.isSome = true →
        (spi_transfer rxof cl idx d txb rxb len t).rx =
          (List.range ((len + 1) / 2)).map rxof)) := by
  refine ⟨?_, ?_, ?_⟩
  · unfold spi_transfer
    by_cases hb : d.bits ≤ 8
    · rw [if_pos hb]
      unfold spi_transfer_8
      rw [if_pos rfl]
    · rw [if_neg hb]
      unfold spi_transfer_16
      rw [if_pos rfl]
  · intro hb hlen
    unfold spi_transfer
    rw [if_pos hb]
    exact spi_transfer_8_spec rxof cl idx d txb rxb len t hlen
  · intro hb hlen
    unfold spi_transfer
    rw [if_neg (by omega)]
    exact spi_transfer_16_spec rxof cl idx d txb rxb len t hlen

/-- C1 counterexample: on a 16-bit device, `spi_transfer` with length 1
returns 2 (not 1), and with length 2 it clocks a single 16-bit word (not 2
words): the claim's "returns exactly N clocking the N words" fails on the
16-bit path. -/
theorem C1_counterexample :
    (spi_transfer rxof0 none 0
      ⟨2, ⟨0, 2 ^ 10⟩, PioConfig.periphB, SpiMode.mode0, 16, 1, 0, 0,
       SpiCsMode.frame, false⟩ (some [11, 22]) none 1 true).ret ≠ 1 ∧
    ((spi_transfer rxof0 none 0
      ⟨2, ⟨0, 2 ^ 10⟩, PioConfig.periphB, SpiMode.mode0, 16, 1, 0, 0,
       SpiCsMode.frame, false⟩ (some [11, 22]) none 2 true).events.filter
        Event.isXfer).length ≠ 2 := by
  constructor
  · decide
  · decide

/-- C1 witness: a 2-word 8-bit transfer returns 2 and clocks the two words
in buffer order. -/
theorem C1_transfer_order_witness :
    (spi_transfer rxof0 none 0
      ⟨0, ⟨0, 2 ^ 11⟩, PioConfig.periphA, SpiMode.mode0, 8, 1, 0, 0,
       SpiCsMode.toggle, false⟩ (some [85, 170]) (some [0, 0]) 2 true).ret = 2 ∧
    (spi_transfer rxof0 none 0
      ⟨0, ⟨0, 2 ^ 11⟩, PioConfig.periphA, SpiMode.mode0, 8, 1, 0, 0,
       SpiCsMode.toggle, false⟩ (some [85, 170]) (some [0, 0]) 2 true).events.filter
        Event.isXfer = [Event.xfer 0 85, Event.xfer 0 170] := by
  have h := (C1_transfer_order rxof0 none 0
    ⟨0, ⟨0, 2 ^ 11⟩, PioConfig.periphA, SpiMode.mode0, 8, 1, 0, 0,
     SpiCsMode.toggle, false⟩ (some [85, 170]) (some [0, 0]) 2 true).2.1
    (by decide) (by decide)
  refine ⟨h.1, ?_⟩
  rw [h.2.1]
  rfl

theorem spi_cs_assert_gpio (d : SpiDev) (hm : d.cs_mode ≠ SpiCsMode.high)
    (ha : d.cs_active = false) (hc : d.cs_config = PioConfig.outputHigh) :
    spi_cs_assert d =
      ({d with cs_active := true}, [Event.pioConfig d.cs PioConfig.outputLow],
       false) := by
  unfold spi_cs_assert
  rw [if_neg (by simp [ha, hm])]
  dsimp only
  rw [if_pos hc]

/-- C4: on the 8-bit GPIO (bit-banged chip select) path with `N > 0` words
and the chip select initially inactive: in TOGGLE framing the chip select
pin is driven low and back high exactly once around every word (2N
transitions); in FRAME framing with `terminate = true` it is driven low once
before word 0 and high once after the last word; in FRAME framing with
`terminate = false` it is driven low before word 0 and stays asserted when
the call returns. -/
theorem C4_gpio_framing (rxof : Nat → Nat) (cl : Option Nat) (idx : Nat)
    (d : SpiDev) (txb rxb : Option (List Nat)) (len : Nat) (t : Bool)
    (hcs : d.cs_config = PioConfig.outputHigh) (ha : d.cs_active = false)
    (hlen : 0 < len) :
    (d.cs_mode = SpiCsMode.toggle →
      (spi_transfer_8 rxof cl idx d txb rxb len t).events =
        (spi_config cl idx d).2 ++
          (List.range len).flatMap (fun k =>
            [Event.pioConfig d.cs PioConfig.outputLow,
             Event.xfer d.channel ((txb.getD (rxb.getD [])).getD k 0),
             Event.pioConfig d.cs PioConfig.outputHigh]) ∧
      (spi_transfer_8 rxof cl idx d txb rxb len t).dev = d) ∧
    (d.cs_mode = SpiCsMode.frame → t = true →
      (spi_transfer_8 rxof cl idx d txb rxb len t).events =
        (spi_config cl idx d).2 ++
          ([Event.pioConfig d.cs PioConfig.outputLow] ++
           (List.range len).map (fun k =>
             Event.xfer d.channel ((txb.getD (rxb.getD [])).getD k 0)) ++
           [Event.pioConfig d.cs PioConfig.outputHigh]) ∧
      (spi_transfer_8 rxof cl idx d txb rxb len t).dev.cs_active = false) ∧
    (d.cs_mode = SpiCsMode.frame → t = false →
      (spi_transfer_8 rxof cl idx d txb rxb len t).events =
        (spi_config cl idx d).2 ++
          ([Event.pioConfig d.cs PioConfig.outputLow] ++
           (List.range len).map (fun k =>
             Event.xfer d.channel ((txb.getD (rxb.getD [])).getD k 0))) ∧
      (spi_transfer_8 rxof cl idx d txb rxb len t).dev.cs_active = true) := by
  have hunf : spi_transfer_8 rxof cl idx d txb rxb len t =
      spi_transfer_8_gpio rxof (spi_config cl idx d).1 (spi_config cl idx d).2 d
        (txb.getD (rxb.getD [])) rxb.isSome len t := by
    unfold spi_transfer_8
    rw [if_neg hlen.ne']
    dsimp only
    rw [if_neg (by simp [hcs])]
  refine ⟨?_, ?_, ?_⟩
  · intro hm
    have h1 : ¬(d.cs_mode = SpiCsMode.frame) := by simp [hm]
    have h2 : ∀ dv : SpiDev,
        (if t = true ∧ d.cs_mode = SpiCsMode.frame then spi_cs_negate dv
          else (dv, [])) = (dv, []) := fun dv => if_neg (fun hx => h1 hx.2)
    rw [hunf]
    unfold spi_transfer_8_gpio
    dsimp only
    rw [if_neg h1]
    dsimp only
    rw [spi_xfer8_gpio_loop_toggle rxof _ _ len 0 d hm ha hcs, h2]
    dsimp only
    constructor
    · simp [List.range_eq_range', List.append_assoc]
    · rfl
  · intro hm ht
    subst ht
    have hnh : d.cs_mode ≠ SpiCsMode.high := by simp [hm]
    rw [hunf]
    unfold spi_transfer_8_gpio
    dsimp only
    rw [if_pos hm, spi_cs_assert_gpio d hnh ha hcs]
    dsimp only
    have hnt : ({d with cs_active := true} : SpiDev).cs_mode ≠ SpiCsMode.toggle := by
      simp [hm]
    rw [spi_xfer8_gpio_loop_no_toggle rxof _ _ len 0 _ hnt]
    dsimp only
    rw [if_pos (⟨rfl, hm⟩ : true = true ∧ d.cs_mode = SpiCsMode.frame)]
    rw [spi_cs_negate_after_assert d ha]
    dsimp only
    constructor
    · simp [List.range_eq_range', List.append_assoc]
    · exact ha
  · intro hm ht
    subst ht
    have hnh : d.cs_mode ≠ SpiCsMode.high := by simp [hm]
    rw [hunf]
    unfold spi_transfer_8_gpio
    dsimp only
    rw [if_pos hm, spi_cs_assert_gpio d hnh ha hcs]
    dsimp only
    have hnt : ({d with cs_active := true} : SpiDev).cs_mode ≠ SpiCsMode.toggle := by
      simp [hm]
    rw [spi_xfer8_gpio_loop_no_toggle rxof _ _ len 0 _ hnt]
    dsimp only
    rw [if_neg (fun hx => Bool.noConfusion hx.1)]
    constructor
    · simp [List.range_eq_range', List.append_assoc]
    · rfl

/-- C4 witness: one-word TOGGLE transfer on a GPIO-fallback device: the
chip select is pulsed low and high exactly once around the word. -/
theorem C4_gpio_framing_witness :
    (spi_transfer_8 rxof0 (some 0) 0
      ⟨1, ⟨0, 2 ^ 7⟩, PioConfig.outputHigh, SpiMode.mode0, 8, 1, 0, 0,
       SpiCsMode.toggle, false⟩ (some [7]) none 1 true).events =
      [Event.pioConfig ⟨0, 2 ^ 7⟩ PioConfig.outputLow, Event.xfer 1 7,
       Event.pioConfig ⟨0, 2 ^ 7⟩ PioConfig.outputHigh] := by
  have h := (C4_gpio_framing rxof0 (some 0) 0
    ⟨1, ⟨0, 2 ^ 7⟩, PioConfig.outputHigh, SpiMode.mode0, 8, 1, 0, 0,
     SpiCsMode.toggle, false⟩ (some [7]) none 1 true rfl rfl (by decide)).1 rfl
  rw [h.1]
  rfl

theorem spi_config_filter_isLastxfer_pair (cl : Option Nat) (idx : Nat)
    (d : SpiDev) :
    ((spi_config cl idx d).2.filter Event.isLastxfer) = [] :=
  spi_config_filter_isLastxfer cl idx d

/-- C5: the claim says the LASTXFER flag is raised exactly once, right
before the last word pair, for every terminating 16-bit transfer on the
automatic path.  The code disagrees: with `i` stepping by 2 the guard
`i >= len - 1` never fires for even `len`, so for every even length (the
only lengths respecting the 16-bit caller contract) no LASTXFER is issued
at all; the flag is raised (exactly once, before the final iteration) only
for odd lengths. -/
theorem C5_lastxfer (rxof : Nat → Nat) (cl : Option Nat) (idx : Nat)
    (d : SpiDev) (txb rxb : Option (List Nat)) (len : Nat) (t : Bool) :
    (len % 2 = 0 →
      (spi_transfer_16 rxof cl idx d txb rxb len t).events.filter
        Event.isLastxfer = []) ∧
    (len % 2 = 1 → d.cs_config ≠ PioConfig.outputHigh → t = true →
      (spi_transfer_16 rxof cl idx d txb rxb len t).events.filter
        Event.isLastxfer = [Event.lastxfer d.channel]) := by
  constructor
  · intro hev
    by_cases h0 : len = 0
    · subst h0
      unfold spi_transfer_16
      rw [if_pos rfl]
      rfl
    unfold spi_transfer_16
    rw [if_neg h0]
    dsimp only
    by_cases hcs : d.cs_config ≠ PioConfig.outputHigh
    · rw [if_pos hcs]
      unfold spi_transfer_16_auto
      dsimp only
      have h3 : ∀ dv : SpiDev,
          (if t = true then spi_cs_negate dv else (dv, [])).2.filter
            Event.isLastxfer = [] := by
        intro dv
        split
        · exact spi_cs_negate_filter_isLastxfer dv
        · rfl
      simp only [List.filter_append, spi_config_filter_isLastxfer_pair,
        spi_cs_assert_filter_isLastxfer,
        spi_xfer16_auto_loop_lastxfer_bounded rxof _ _ len t ((len + 1) / 2) 0 _
          (by omega),
        h3, List.nil_append, List.append_nil]
    · rw [if_neg hcs]
      unfold spi_transfer_16_gpio
      dsimp only
      have h1 : (if d.cs_mode = SpiCsMode.frame then spi_cs_assert d
          else (d, [], false)).2.1.filter Event.isLastxfer = [] := by
        split
        · exact spi_cs_assert_filter_isLastxfer d
        · rfl
      have h3 : ∀ dv : SpiDev,
          (if t = true ∧ d.cs_mode = SpiCsMode.frame then spi_cs_negate dv
            else (dv, [])).2.filter Event.isLastxfer = [] := by
        intro dv
        split
        · exact spi_cs_negate_filter_isLastxfer dv
        · rfl
      simp only [List.filter_append, spi_config_filter_isLastxfer_pair, h1, h3,
        spi_xfer16_gpio_loop_lastxfer, List.nil_append, List.append_nil]
  · intro hodd hcs ht
    subst ht
    unfold spi_transfer_16
    rw [if_neg (by omega)]
    dsimp only
    rw [if_pos hcs]
    unfold spi_transfer_16_auto
    dsimp only
    have h3 : ∀ dv : SpiDev,
        (if true = true then spi_cs_negate dv else (dv, [])).2.filter
          Event.isLastxfer = [] := fun dv => spi_cs_negate_filter_isLastxfer dv
    simp only [List.filter_append, spi_config_filter_isLastxfer_pair,
      spi_cs_assert_filter_isLastxfer,
      spi_xfer16_auto_loop_lastxfer_odd rxof _ _ len ((len + 1) / 2) 0 _
        (by omega) (by omega) (by omega) hodd,
      spi_cs_assert_channel, h3, List.nil_append, List.append_nil]
    rw [if_pos trivial, spi_cs_negate_filter_isLastxfer, List.append_nil]

/-- C5 witness: a terminating 2-byte (one word pair) 16-bit transfer on the
automatic path issues no LASTXFER at all, where the claim requires exactly
one. -/
theorem C5_lastxfer_witness :
    (spi_transfer_16 rxof0 none 0
      ⟨2, ⟨0, 2 ^ 10⟩, PioConfig.periphB, SpiMode.mode0, 16, 1, 0, 0,
       SpiCsMode.frame, false⟩ (some [1, 2]) none 2 true).events.filter
      Event.isLastxfer = [] :=
  (C5_lastxfer rxof0 none 0
    ⟨2, ⟨0, 2 ^ 10⟩, PioConfig.periphB, SpiMode.mode0, 16, 1, 0, 0,
     SpiCsMode.frame, false⟩ (some [1, 2]) none 2 true).1 (by decide)

theorem spi_cs_lookup_eq_none_iff (channel : Nat) (cs : Pio) :
    ∀ l : List SpiCsEntry, spi_cs_lookup channel cs l = none ↔
      ∀ e ∈ l, ¬(channel = e.channel ∧ cs.port = e.pio.port ∧
        cs.bitmask = e.pio.bitmask) := by
  intro l
  induction l with
  | nil => simp [spi_cs_lookup]
  | cons a rest ih =>
    unfold spi_cs_lookup
    by_cases h : channel = a.channel ∧ cs.port = a.pio.port ∧
        cs.bitmask = a.pio.bitmask
    · rw [if_pos h]
      simp [h]
    · rw [if_neg h]
      simp only [List.mem_cons]
      constructor
      · intro hn e he
        rcases he with he | he
        · rw [he]
          exact h
        · exact (ih.1 hn) e he
      · intro hall
        exact ih.2 (fun e he => hall e (Or.inr he))

theorem spi_cs_lookup_some_spec (channel : Nat) (cs : Pio) :
    ∀ (l : List SpiCsEntry) (e : SpiCsEntry),
      spi_cs_lookup channel cs l = some e →
      e ∈ l ∧ channel = e.channel ∧ cs.port = e.pio.port ∧
        cs.bitmask = e.pio.bitmask := by
  intro l
  induction l with
  | nil =>
    intro e h
    exact absurd h (by simp [spi_cs_lookup])
  | cons a rest ih =>
    intro e h
    unfold spi_cs_lookup at h
    by_cases hc : channel = a.channel ∧ cs.port = a.pio.port ∧
        cs.bitmask = a.pio.bitmask
    · rw [if_pos hc] at h
      cases h
      exact ⟨List.mem_cons_self a rest, hc⟩
    · rw [if_neg hc] at h
      obtain ⟨hm, hrest⟩ := ih e h
      exact ⟨List.mem_cons_of_mem a hm, hrest⟩

/-- C6: the chip-select resolver returns the GPIO fallback `outputHigh`
exactly when no entry of the capability table matches the requested channel
and the pin's port and bitmask; on a match it returns the first matching
entry's peripheral selector.  Every device resolved to GPIO
(`cs_config = outputHigh`) takes the bit-banged transfer branch for every
framing mode, on both word-width paths. -/
theorem C6_resolver :
    (∀ (channel : Nat) (cs : Pio),
       spi_channel_cs_config_get channel cs = PioConfig.outputHigh ↔
         ¬∃ e ∈ spi_cs_table, channel = e.channel ∧ cs.port = e.pio.port ∧
            cs.bitmask = e.pio.bitmask) ∧
    (∀ (channel : Nat) (cs : Pio) (e : SpiCsEntry),
       spi_cs_lookup channel cs spi_cs_table = some e →
       spi_channel_cs_config_get channel cs =
         (if e.periph = 0 then PioConfig.periphA else PioConfig.periphB)) ∧
    (∀ (rxof : Nat → Nat) (cl : Option Nat) (idx : Nat) (d : SpiDev)
       (txb rxb : Option (List Nat)) (len : Nat) (t : Bool),
       d.cs_config = PioConfig.outputHigh → 0 < len →
       spi_transfer_8 rxof cl idx d txb rxb len t =
         spi_transfer_8_gpio rxof (spi_config cl idx d).1 (spi_config cl idx d).2
           d (txb.getD (rxb.getD [])) rxb.isSome len t ∧
       spi_transfer_16 rxof cl idx d txb rxb len t =
         spi_transfer_16_gpio rxof (spi_config cl idx d).1 (spi_config cl idx d).2
           d (txb.getD (rxb.getD [])) rxb.isSome len t) := by
  refine ⟨?_, ?_, ?_⟩
  · intro channel cs
    unfold spi_channel_cs_config_get
    cases hl : spi_cs_lookup channel cs spi_cs_table with
    | none =>
      have hall := (spi_cs_lookup_eq_none_iff channel cs spi_cs_table).1 hl
      constructor
      · intro _
        rintro ⟨e, he, hm⟩
        exact hall e he hm
      · intro _
        rfl
    | some e =>
      obtain ⟨hm, hch, hpt, hbm⟩ := spi_cs_lookup_some_spec channel cs spi_cs_table e hl
      apply iff_of_false
      · intro hx
        dsimp only at hx
        by_cases hp : e.periph = 0
        · rw [if_pos hp] at hx
          exact PioConfig.noConfusion hx
        · rw [if_neg hp] at hx
          exact PioConfig.noConfusion hx
      · intro hn
        exact hn ⟨e, hm, hch, hpt, hbm⟩
  · intro channel cs e h
    unfold spi_channel_cs_config_get
    rw [h]
  · intro rxof cl idx d txb rxb len t hcs hlen
    constructor
    · unfold spi_transfer_8
      rw [if_neg hlen.ne']
      dsimp only
      rw [if_neg (by simp [hcs])]
    · unfold spi_transfer_16
      rw [if_neg hlen.ne']
      dsimp only
      rw [if_neg (by simp [hcs])]

/-- C6 witness: pin A7 is not in the table for channel 0, so the resolver
falls back to GPIO and a transfer on such a device takes the bit-bang
branch. -/
theorem C6_resolver_witness :
    spi_channel_cs_config_get 0 ⟨0, 2 ^ 7⟩ = PioConfig.outputHigh ∧
    spi_transfer_8 rxof0 none 0
      ⟨0, ⟨0, 2 ^ 7⟩, PioConfig.outputHigh, SpiMode.mode0, 8, 1, 0, 0,
       SpiCsMode.frame, false⟩ (some [1]) none 1 false =
      spi_transfer_8_gpio rxof0
        (spi_config none 0
          ⟨0, ⟨0, 2 ^ 7⟩, PioConfig.outputHigh, SpiMode.mode0, 8, 1, 0, 0,
           SpiCsMode.frame, false⟩).1
        (spi_config none 0
          ⟨0, ⟨0, 2 ^ 7⟩, PioConfig.outputHigh, SpiMode.mode0, 8, 1, 0, 0,
           SpiCsMode.frame, false⟩).2
        ⟨0, ⟨0, 2 ^ 7⟩, PioConfig.outputHigh, SpiMode.mode0, 8, 1, 0, 0,
         SpiCsMode.frame, false⟩ [1] false 1 false := by
  constructor
  · exact (C6_resolver.1 0 ⟨0, 2 ^ 7⟩).2 (by decide)
  · exact (C6_resolver.2.2 rxof0 none 0
      ⟨0, ⟨0, 2 ^ 7⟩, PioConfig.outputHigh, SpiMode.mode0, 8, 1, 0, 0,
       SpiCsMode.frame, false⟩ (some [1]) none 1 false rfl (by decide)).1

/-! Helpers for the ALWAYS-HIGH claim. -/

theorem filter_isPio_map_xfer (c : Nat) (g : Nat → Nat) (l : List Nat) :
    ((l.map (fun k => Event.xfer c (g k))).filter Event.isPio) = [] := by
  induction l with
  | nil => rfl
  | cons a r ih => simp [ih]

theorem not_mem_of_filter_isPio_nil {l : List Event} {e : Event}
    (hf : l.filter Event.isPio = []) (he : e ∈ l) (hp : Event.isPio e = true) :
    False := by
  have hmem := List.mem_filter.mpr ⟨he, hp⟩
  rw [hf] at hmem
  exact absurd hmem (List.not_mem_nil e)

/-- C8 counterexample: chip-select handling is not suppressed entirely for
ALWAYS-HIGH devices: `spi_xferc` on a GPIO-fallback ALWAYS-HIGH device, and
a terminating `spi_transfer` on an automatic-path ALWAYS-HIGH device, both
reconfigure the chip-select pin (driving it output-high) through the
unconditional `spi_cs_negate`. -/
theorem C8_counterexample :
    (Event.pioConfig ⟨0, 2 ^ 7⟩ PioConfig.outputHigh ∈
      (spi_xferc rxof0 none 0
        ⟨0, ⟨0, 2 ^ 7⟩, PioConfig.outputHigh, SpiMode.mode0, 8, 1, 0, 0,
         SpiCsMode.high, false⟩ 7).events) ∧
    (Event.pioConfig ⟨0, 2 ^ 11⟩ PioConfig.outputHigh ∈
      (spi_transfer rxof0 none 0
        ⟨0, ⟨0, 2 ^ 11⟩, PioConfig.periphA, SpiMode.mode0, 8, 1, 0, 0,
         SpiCsMode.high, false⟩ (some [1]) none 1 true).events) := by
  constructor
  · decide
  · decide


/-- C8 (amended): for an ALWAYS-HIGH device `spi_cs_assert` is suppressed,
so the chip select is never driven low; `spi_transfer` on the GPIO-fallback
path performs no chip-select pin action at all; but `spi_cs_negate` is
unconditional, so `spi_xferc` (and hence `spi_getc`/`spi_putc`, which are
wrappers around it) always ends by reconfiguring the chip-select pin to
output-high, and any pin action of `spi_transfer` (which occurs only on the
automatic path when terminating) is that same output-high drive. -/
theorem C8_always_high (rxof : Nat → Nat) (cl : Option Nat) (idx : Nat)
    (d : SpiDev) (txb rxb : Option (List Nat)) (len : Nat) (t : Bool) (ch : Nat)
    (hm : d.cs_mode = SpiCsMode.high) :
    (d.cs_config = PioConfig.outputHigh →
      (spi_transfer rxof cl idx d txb rxb len t).events.filter Event.isPio = []) ∧
    ((spi_xferc rxof cl idx d ch).events.filter Event.isPio =
      [Event.pioConfig d.cs PioConfig.outputHigh]) ∧
    (∀ e ∈ (spi_transfer rxof cl idx d txb rxb len t).events,
       Event.isPio e = true → e = Event.pioConfig d.cs PioConfig.outputHigh) ∧
    (spi_getc rxof cl idx d = spi_xferc rxof cl idx d 0) ∧
    (spi_putc rxof cl idx d ch = spi_xferc rxof cl idx d ch) := by
  have hnf : ¬(d.cs_mode = SpiCsMode.frame) := by simp [hm]
  have hnt : ¬(d.cs_mode = SpiCsMode.toggle) := by simp [hm]
  refine ⟨?_, ?_, ?_, rfl, rfl⟩
  · intro hcs
    unfold spi_transfer
    by_cases hb : d.bits ≤ 8
    · rw [if_pos hb]
      by_cases h0 : len = 0
      · subst h0
        unfold spi_transfer_8
        rw [if_pos rfl]
        rfl
      unfold spi_transfer_8
      rw [if_neg h0]
      dsimp only
      rw [if_neg (by simp [hcs])]
      unfold spi_transfer_8_gpio
      dsimp only
      rw [if_neg hnf]
      dsimp only
      rw [spi_xfer8_gpio_loop_no_toggle rxof _ _ len 0 d hnt]
      dsimp only
      rw [if_neg (fun hx => hnf hx.2)]
      simp only [List.filter_append, spi_config_filter_isPio, List.append_nil,
        List.nil_append]
      exact filter_isPio_map_xfer d.channel _ _
    · rw [if_neg hb]
      by_cases h0 : len = 0
      · subst h0
        unfold spi_transfer_16
        rw [if_pos rfl]
        rfl
      unfold spi_transfer_16
      rw [if_neg h0]
      dsimp only
      rw [if_neg (by simp [hcs])]
      unfold spi_transfer_16_gpio
      dsimp only
      rw [if_neg hnf]
      dsimp only
      rw [spi_xfer16_gpio_loop_no_toggle rxof _ _ ((len + 1) / 2) 0 d hnt]
      dsimp only
      rw [if_neg (fun hx => hnf hx.2)]
      simp only [List.filter_append, spi_config_filter_isPio, List.append_nil,
        List.nil_append]
      exact filter_isPio_map_xfer d.channel _ _
  · unfold spi_xferc
    dsimp only
    rw [spi_cs_assert_of_high d hm]
    dsimp only
    simp only [List.filter_append, spi_config_filter_isPio, List.nil_append]
    rfl
  · intro e he hp
    unfold spi_transfer at he
    by_cases hb : d.bits ≤ 8
    · rw [if_pos hb] at he
      by_cases h0 : len = 0
      · subst h0
        unfold spi_transfer_8 at he
        rw [if_pos rfl] at he
        exact absurd he (List.not_mem_nil e)
      unfold spi_transfer_8 at he
      rw [if_neg h0] at he
      dsimp only at he
      by_cases hcs : d.cs_config ≠ PioConfig.outputHigh
      · rw [if_pos hcs] at he
        unfold spi_transfer_8_auto at he
        dsimp only at he
        rw [spi_cs_assert_of_high d hm] at he
        dsimp only at he
        simp only [List.mem_append] at he
        rcases he with (he | he) | he
        · exact absurd (not_mem_of_filter_isPio_nil
            (spi_config_filter_isPio cl idx d) he hp) (fun hx => hx)
        · exact absurd he (List.not_mem_nil e)
        · exact spi_xfer8_auto_loop_pio rxof _ _ len t len 0 d e he hp
      · rw [if_neg hcs] at he
        unfold spi_transfer_8_gpio at he
        dsimp only at he
        rw [if_neg hnf] at he
        dsimp only at he
        rw [spi_xfer8_gpio_loop_no_toggle rxof _ _ len 0 d hnt] at he
        dsimp only at he
        rw [if_neg (fun hx => hnf hx.2)] at he
        simp only [List.mem_append] at he
        rcases he with ((he | he) | he) | he
        · exact absurd (not_mem_of_filter_isPio_nil
            (spi_config_filter_isPio cl idx d) he hp) (fun hx => hx)
        · exact absurd he (List.not_mem_nil e)
        · exact absurd (not_mem_of_filter_isPio_nil
            (filter_isPio_map_xfer d.channel (fun k =>
              (txb.getD (rxb.getD [])).getD k 0) (List.range' 0 len)) he hp)
            (fun hx => hx)
        · exact absurd he (List.not_mem_nil e)
    · rw [if_neg hb] at he
      by_cases h0 : len = 0
      · subst h0
        unfold spi_transfer_16 at he
        rw [if_pos rfl] at he
        exact absurd he (List.not_mem_nil e)
      unfold spi_transfer_16 at he
      rw [if_neg h0] at he
      dsimp only at he
      by_cases hcs : d.cs_config ≠ PioConfig.outputHigh
      · rw [if_pos hcs] at he
        unfold spi_transfer_16_auto at he
        dsimp only at he
        rw [spi_cs_assert_of_high d hm] at he
        dsimp only at he
        rw [spi_xfer16_auto_loop_dev rxof (txb.getD (rxb.getD [])) rxb.isSome
          len t ((len + 1) / 2) 0 d] at he
        by_cases ht : t = true
        · rw [if_pos ht] at he
          simp only [List.mem_append] at he
          rcases he with ((he | he) | he) | he
          · exact absurd (not_mem_of_filter_isPio_nil
              (spi_config_filter_isPio cl idx d) he hp) (fun hx => hx)
          · exact absurd he (List.not_mem_nil e)
          · exact absurd (not_mem_of_filter_isPio_nil
              (spi_xfer16_auto_loop_pio rxof _ _ len t ((len + 1) / 2) 0 d)
              he hp) (fun hx => hx)
          · unfold spi_cs_negate at he
            simp only [List.mem_singleton] at he
            exact he
        · rw [if_neg ht] at he
          simp only [List.mem_append] at he
          rcases he with ((he | he) | he) | he
          · exact absurd (not_mem_of_filter_isPio_nil
              (spi_config_filter_isPio cl idx d) he hp) (fun hx => hx)
          · exact absurd he (List.not_mem_nil e)
          · exact absurd (not_mem_of_filter_isPio_nil
              (spi_xfer16_auto_loop_pio rxof _ _ len t ((len + 1) / 2) 0 d)
              he hp) (fun hx => hx)
          · exact absurd he (List.not_mem_nil e)
      · rw [if_neg hcs] at he
        unfold spi_transfer_16_gpio at he
        dsimp only at he
        rw [if_neg hnf] at he
        dsimp only at he
        rw [spi_xfer16_gpio_loop_no_toggle rxof _ _ ((len + 1) / 2) 0 d hnt] at he
        dsimp only at he
        rw [if_neg (fun hx => hnf hx.2)] at he
        simp only [List.mem_append] at he
        rcases he with ((he | he) | he) | he
        · exact absurd (not_mem_of_filter_isPio_nil
            (spi_config_filter_isPio cl idx d) he hp) (fun hx => hx)
        · exact absurd he (List.not_mem_nil e)
        · exact absurd (not_mem_of_filter_isPio_nil
            (filter_isPio_map_xfer d.channel (fun k =>
              (txb.getD (rxb.getD [])).getD k 0) (List.range' 0 ((len + 1) / 2)))
            he hp) (fun hx => hx)
        · exact absurd he (List.not_mem_nil e)

/-- C8 witness: on a GPIO-fallback ALWAYS-HIGH device a transfer performs no
chip-select pin action, and `spi_xferc` performs exactly the output-high
reconfiguration. -/
theorem C8_always_high_witness :
    ((spi_transfer rxof0 none 0
      ⟨0, ⟨0, 2 ^ 7⟩, PioConfig.outputHigh, SpiMode.mode0, 8, 1, 0, 0,
       SpiCsMode.high, false⟩ (some [1, 2]) none 2 true).events.filter
        Event.isPio = []) ∧
    ((spi_xferc rxof0 none 0
      ⟨0, ⟨0, 2 ^ 7⟩, PioConfig.outputHigh, SpiMode.mode0, 8, 1, 0, 0,
       SpiCsMode.high, false⟩ 7).events.filter Event.isPio =
      [Event.pioConfig ⟨0, 2 ^ 7⟩ PioConfig.outputHigh]) := by
  have h := C8_always_high rxof0 none 0
    ⟨0, ⟨0, 2 ^ 7⟩, PioConfig.outputHigh, SpiMode.mode0, 8, 1, 0, 0,
     SpiCsMode.high, false⟩ (some [1, 2]) none 2 true 7 rfl
  exact ⟨h.1 rfl, h.2.1⟩
